import Mathlib

/-!
Verification development for the Rekordbox `export.pdb` decoder
(`src/lib/rekordbox-parser.ts`, hardened variant) and the library merge in
`src/hooks/useRekordbox.ts`.

The buffer is a `List Nat` of bytes.  `DataView` reads are modelled by
`readU8`/`readU16`/`readU32` (little endian).  Every read the code performs
on a reachable path is bounds-checked in the source, so total functions with
a default of 0 for out-of-range indices are faithful; the single unguarded
read (the 21st string-offset slot of a track row, see `parseTrackRow`) is
modelled explicitly as a dropped row, mirroring the `try/catch` in
`parseTablePages` that swallows the `RangeError`.

JavaScript `Map` values are modelled as association lists with JS `Map`
semantics: `set` keeps the original insertion position of an existing key
and overwrites its value, otherwise appends (`mapSet`); `get` is `mapGet`.

`new Date()` (the wall clock, used as the default `dateAdded`) is modelled
by threading an explicit clock value `now : Nat` into the decode;
`new Date(s)` for a string `s` is the deterministic `DateAdded.fromString s`.

Floating point: the only numeric field that is a JS float is `bpm =
tempo / 100` with `tempo ≤ 50000`; quotients of such small integers by 100
are distinct doubles for distinct `tempo` and positive iff `tempo > 0`, so
modelling `bpm` as the rational `tempo / 100` preserves every comparison
and equality the program performs.  The comparisons `a >= b / c` and
`a > b / c` on page counts are likewise exact for the ranges involved
(`b ≤ 2^29`, `c ≤ 2^20`, distance at least `1/c` from any integer, far above
the double rounding error), so they are modelled as `a * c ≥ b` / `a * c > b`.
-/

/-- One byte of the input buffer; out of range reads give 0 (all reads on
reachable paths are guarded in the source, see module comment). -/
def readU8 (buf : List Nat) (i : Nat) : Nat := buf.getD i 0

/-- Little-endian 16-bit read, `DataView.getUint16(i, true)`. -/
def readU16 (buf : List Nat) (i : Nat) : Nat :=
  readU8 buf i + 256 * readU8 buf (i + 1)

/-- Little-endian 32-bit read, `DataView.getUint32(i, true)`. -/
def readU32 (buf : List Nat) (i : Nat) : Nat :=
  readU8 buf i + 256 * readU8 buf (i + 1) + 65536 * readU8 buf (i + 2) +
    16777216 * readU8 buf (i + 3)

/-- `bytes.slice`: `n` bytes of the buffer starting at `start`. -/
def sliceBytes (buf : List Nat) (start n : Nat) : List Nat :=
  (buf.drop start).take n

/-- The WHATWG "ascii" decoder label is an alias of windows-1252: bytes
0x00–0x7F and 0xA0–0xFF map to the equal code point, 0x80–0x9F via the
windows-1252 table. -/
def win1252Char (b : Nat) : Char :=
  if b = 0x80 then Char.ofNat 0x20AC
  else if b = 0x82 then Char.ofNat 0x201A
  else if b = 0x83 then Char.ofNat 0x0192
  else if b = 0x84 then Char.ofNat 0x201E
  else if b = 0x85 then Char.ofNat 0x2026
  else if b = 0x86 then Char.ofNat 0x2020
  else if b = 0x87 then Char.ofNat 0x2021
  else if b = 0x88 then Char.ofNat 0x02C6
  else if b = 0x89 then Char.ofNat 0x2030
  else if b = 0x8A then Char.ofNat 0x0160
  else if b = 0x8B then Char.ofNat 0x2039
  else if b = 0x8C then Char.ofNat 0x0152
  else if b = 0x8E then Char.ofNat 0x017D
  else if b = 0x91 then Char.ofNat 0x2018
  else if b = 0x92 then Char.ofNat 0x2019
  else if b = 0x93 then Char.ofNat 0x201C
  else if b = 0x94 then Char.ofNat 0x201D
  else if b = 0x95 then Char.ofNat 0x2022
  else if b = 0x96 then Char.ofNat 0x2013
  else if b = 0x97 then Char.ofNat 0x2014
  else if b = 0x98 then Char.ofNat 0x02DC
  else if b = 0x99 then Char.ofNat 0x2122
  else if b = 0x9A then Char.ofNat 0x0161
  else if b = 0x9B then Char.ofNat 0x203A
  else if b = 0x9C then Char.ofNat 0x0153
  else if b = 0x9E then Char.ofNat 0x017E
  else if b = 0x9F then Char.ofNat 0x0178
  else Char.ofNat b

/-- `new TextDecoder('ascii').decode(bytes)`. -/
def asciiDecode (bytes : List Nat) : String :=
  String.mk (bytes.map win1252Char)

/-- UTF-16LE code units from a byte list; a trailing odd byte yields the
replacement character, as the WHATWG utf-16le decoder does. -/
def utf16Units : List Nat → List Nat
  | [] => []
  | [_] => [0xFFFD]
  | a :: b :: rest => (a + 256 * b) :: utf16Units rest

/-- Combine UTF-16 code units into characters (surrogate pairs; lone
surrogates become the replacement character). -/
def utf16Chars : List Nat → List Char
  | [] => []
  | u :: rest =>
    if 0xD800 ≤ u ∧ u ≤ 0xDBFF then
      match rest with
      | [] => [Char.ofNat 0xFFFD]
      | v :: rest' =>
        if 0xDC00 ≤ v ∧ v ≤ 0xDFFF then
          Char.ofNat (0x10000 + (u - 0xD800) * 0x400 + (v - 0xDC00)) :: utf16Chars rest'
        else
          Char.ofNat 0xFFFD :: utf16Chars (v :: rest')
    else if 0xDC00 ≤ u ∧ u ≤ 0xDFFF then
      Char.ofNat 0xFFFD :: utf16Chars rest
    else
      Char.ofNat u :: utf16Chars rest

/-- `new TextDecoder('utf-16le').decode(bytes)`. -/
def utf16Decode (bytes : List Nat) : String :=
  String.mk (utf16Chars (utf16Units bytes))

/-- `readDeviceSqlString(dataView, offset, bufferLength)` of the hardened
parser.  A nonnegative `offset` is guaranteed by the type; the JS
`offset < 0` branch is unreachable from the decoder (all call sites pass
sums of unsigned reads).  `lengthAndKind > 65535` and `length > 65535`
checks are kept even though the reads cannot exceed those bounds. -/
def readDeviceSqlString (buf : List Nat) (offset : Nat) : String :=
  if offset ≥ buf.length then "" else
  let lengthAndKind := readU8 buf offset
  if lengthAndKind = 0x40 then
    if offset + 4 ≥ buf.length then "" else
    let len := readU16 buf (offset + 1)
    if len < 4 ∨ len > 65535 then "" else
    if offset + 4 + (len - 4) > buf.length then "" else
    asciiDecode (sliceBytes buf (offset + 4) (len - 4))
  else if lengthAndKind = 0x90 then
    if offset + 4 ≥ buf.length then "" else
    let len := readU16 buf (offset + 1)
    if len < 4 ∨ len > 65535 then "" else
    if offset + 4 + (len - 4) > buf.length then "" else
    utf16Decode (sliceBytes buf (offset + 4) (len - 4))
  else if lengthAndKind % 2 = 1 then
    let len := lengthAndKind / 2
    if len < 1 ∨ len > 127 then "" else
    if offset + 1 + (len - 1) > buf.length then "" else
    asciiDecode (sliceBytes buf (offset + 1) (len - 1))
  else ""

/-- Association list with JavaScript `Map` semantics: `set` on a present key
overwrites in place (keeping the first-insertion position), otherwise
appends. -/
def mapSet {α : Type} (m : List (Nat × α)) (k : Nat) (v : α) : List (Nat × α) :=
  if m.any (fun p => p.1 = k) then
    m.map (fun p => if p.1 = k then (k, v) else p)
  else
    m ++ [(k, v)]

/-- `Map.get`. -/
def mapGet {α : Type} (m : List (Nat × α)) (k : Nat) : Option α :=
  (m.find? (fun p => p.1 = k)).map (fun p => p.2)

/-- The point in time `new Date(...)` captures: either parsed from a
nonempty date string, or the wall clock at the moment of the call. -/
inductive DateAdded where
  | fromString (s : String)
  | clockNow (t : Nat)
deriving DecidableEq

/-- The public `Track` record (`src/types/rekordbox.ts`). -/
structure Track where
  id : Nat
  title : String
  artist : String
  album : String
  genre : String
  duration : Nat
  bpm : ℚ
  key : String
  rating : Nat
  bitrate : Nat
  filePath : String
  dateAdded : DateAdded
deriving DecidableEq

/-- The public `Playlist` record: a node of the playlist forest. -/
structure Playlist where
  id : Nat
  name : String
  parentId : Option Nat
  isFolder : Bool
  children : List Playlist
  trackIds : List Nat

/-- The public `RekordboxDatabase` (the decoded library). -/
structure RekordboxDatabase where
  tracks : List Track
  playlists : List Playlist

/-- A `TableInfo` entry of the file header. -/
structure TableInfo where
  type : Nat
  firstPage : Nat
  lastPage : Nat
deriving DecidableEq

/-- Value stored in the `playlistTree` map for one playlist id. -/
structure TreeNodeData where
  name : String
  parentId : Nat
  isFolder : Bool
  sortOrder : Nat
deriving DecidableEq

/-- One element of a `playlistEntries` bucket. -/
structure PEntry where
  trackId : Nat
  position : Nat
deriving DecidableEq

/-- The five lookup maps of the first pass. -/
structure Lookups where
  artists : List (Nat × String)
  albums : List (Nat × String)
  genres : List (Nat × String)
  keys : List (Nat × String)
  labels : List (Nat × String)
deriving DecidableEq

def emptyLookups : Lookups := ⟨[], [], [], [], []⟩

/-- `parseSimpleRow` (lookup tables pass).  Bit tests are written with
division/modulo: `subtype & 0x04` is `subtype / 4 % 2 = 1`. -/
def parseSimpleRow (buf : List Nat) (rowBase pageType : Nat) (m : Lookups) : Lookups :=
  if rowBase + 10 > buf.length then m else
  if pageType = 2 then
    -- artist row
    let subtype := readU16 buf rowBase
    let id := readU32 buf (rowBase + 4)
    if id = 0 then m else
    if (subtype / 4) % 2 = 1 then
      if rowBase + 0x0c > buf.length then m else
      let nameOffset := readU16 buf (rowBase + 0x0a)
      if nameOffset > 10000 then m else
      let name := readDeviceSqlString buf (rowBase + nameOffset)
      if name ≠ "" then { m with artists := mapSet m.artists id name } else m
    else
      let nameOffset := readU8 buf (rowBase + 9)
      if nameOffset > 10000 then m else
      let name := readDeviceSqlString buf (rowBase + nameOffset)
      if name ≠ "" then { m with artists := mapSet m.artists id name } else m
  else if pageType = 3 then
    -- album row
    if rowBase + 18 > buf.length then m else
    let subtype := readU16 buf rowBase
    let id := readU32 buf (rowBase + 12)
    if id = 0 then m else
    if (subtype / 4) % 2 = 1 then
      if rowBase + 0x18 > buf.length then m else
      let nameOffset := readU16 buf (rowBase + 0x16)
      if nameOffset > 10000 then m else
      let name := readDeviceSqlString buf (rowBase + nameOffset)
      if name ≠ "" then { m with albums := mapSet m.albums id name } else m
    else
      let nameOffset := readU8 buf (rowBase + 17)
      if nameOffset > 10000 then m else
      let name := readDeviceSqlString buf (rowBase + nameOffset)
      if name ≠ "" then { m with albums := mapSet m.albums id name } else m
  else if pageType = 1 then
    -- genre row
    if rowBase + 4 > buf.length then m else
    let id := readU32 buf rowBase
    if id = 0 then m else
    let name := readDeviceSqlString buf (rowBase + 4)
    if name ≠ "" then { m with genres := mapSet m.genres id name } else m
  else if pageType = 5 then
    -- key row
    if rowBase + 8 > buf.length then m else
    let id := readU32 buf rowBase
    if id = 0 then m else
    let name := readDeviceSqlString buf (rowBase + 8)
    if name ≠ "" then { m with keys := mapSet m.keys id name } else m
  else if pageType = 4 then
    -- label row
    if rowBase + 4 > buf.length then m else
    let id := readU32 buf rowBase
    if id = 0 then m else
    let name := readDeviceSqlString buf (rowBase + 4)
    if name ≠ "" then { m with labels := mapSet m.labels id name } else m
  else m

/-- The pure part of `parsePlaylistTreeRow`: the decoded `(id, data)` pair,
or `none` when the row is dropped. -/
def decodeTreeRow (buf : List Nat) (rowBase : Nat) : Option (Nat × TreeNodeData) :=
  if rowBase + 20 > buf.length then none else
  let parentId := readU32 buf rowBase
  let sortOrder := readU32 buf (rowBase + 8)
  let id := readU32 buf (rowBase + 12)
  let rawIsFolder := readU32 buf (rowBase + 16)
  if id = 0 then none else
  let name := readDeviceSqlString buf (rowBase + 20)
  if name ≠ "" ∧ id > 0 then
    some (id, ⟨name, parentId, rawIsFolder ≠ 0, sortOrder⟩)
  else none

/-- `parsePlaylistTreeRow`: update of the `playlistTree` map. -/
def parsePlaylistTreeRow (buf : List Nat) (rowBase : Nat)
    (m : List (Nat × TreeNodeData)) : List (Nat × TreeNodeData) :=
  match decodeTreeRow buf rowBase with
  | some (id, v) => mapSet m id v
  | none => m

/-- `parsePlaylistEntryRow`: append an entry to its playlist's bucket
(creating the bucket on first use). -/
def parsePlaylistEntryRow (buf : List Nat) (rowBase : Nat)
    (m : List (Nat × List PEntry)) : List (Nat × List PEntry) :=
  if rowBase + 12 > buf.length then m else
  let entryIndex := readU32 buf rowBase
  let trackId := readU32 buf (rowBase + 4)
  let playlistId := readU32 buf (rowBase + 8)
  if playlistId = 0 then m else
  if trackId = 0 then m else
  match mapGet m playlistId with
  | some es => mapSet m playlistId (es ++ [⟨trackId, entryIndex⟩])
  | none => mapSet m playlistId [⟨trackId, entryIndex⟩]

/-- `parseTrackRow`, as an `Option Track` (`none` means the row is dropped
and the `trackData` map is unchanged).  The source checks
`rowBase + 0x86 ≤ len` but the 21st string-offset slot is read at
`rowBase + 0x86 .. rowBase + 0x87`; when that read leaves the buffer the
JS `DataView` throws and `parseTablePages`'s `try/catch` drops the row, so
the model returns `none` at `rowBase + 0x88 > len` as well. -/
def parseTrackRow (buf : List Nat) (now : Nat) (m : Lookups) (rowBase : Nat) :
    Option Track :=
  if rowBase + 0x86 > buf.length then none else
  let tempo := readU32 buf (rowBase + 0x38)
  let genreId := readU32 buf (rowBase + 0x3C)
  let albumId := readU32 buf (rowBase + 0x40)
  let artistId := readU32 buf (rowBase + 0x44)
  let id := readU32 buf (rowBase + 0x48)
  let duration := readU16 buf (rowBase + 0x54)
  let rating := readU8 buf (rowBase + 0x59)
  let bitrate := readU32 buf (rowBase + 0x30)
  let keyId := readU32 buf (rowBase + 0x20)
  if id = 0 then none else
  if tempo > 50000 then none else
  if duration > 36000 then none else
  if rating > 255 then none else
  if bitrate > 10000 then none else
  if rowBase + 0x88 > buf.length then none else
  let slot : Nat → Nat := fun i =>
    let o := readU16 buf (rowBase + 0x5E + i * 2)
    if o > 10000 then 0 else o
  let titleOffset := slot 17
  let title := if titleOffset > 0 then readDeviceSqlString buf (rowBase + titleOffset) else ""
  let filePathOffset := slot 20
  let filePath := if filePathOffset > 0 then readDeviceSqlString buf (rowBase + filePathOffset) else ""
  let dateAddedOffset := slot 10
  let dateAddedStr := if dateAddedOffset > 0 then readDeviceSqlString buf (rowBase + dateAddedOffset) else ""
  some
    { id := id
      title := if title ≠ "" then title else "Unknown Title"
      artist := (mapGet m.artists artistId).getD "Unknown Artist"
      album := (mapGet m.albums albumId).getD "Unknown Album"
      genre := (mapGet m.genres genreId).getD ""
      duration := duration
      bpm := (tempo : ℚ) / 100
      key := (mapGet m.keys keyId).getD ""
      rating := rating
      bitrate := bitrate
      filePath := filePath
      dateAdded := if dateAddedStr ≠ "" then .fromString dateAddedStr else .clockNow now }

/-- Result of one table's page walk: the page indices visited (in order)
and the `(rowBase, pageType)` pairs handed to the row callback (in order). -/
structure WalkResult where
  visited : List Nat
  rows : List (Nat × Nat)
deriving DecidableEq

/-- Live rows of one data page, in ascending row index within ascending
group index: the reverse-growing row-offset index of `parseTablePages`.
Only called when the page fits in the buffer, is a data page of the
table's type and `0 < numRowOffsets ≤ 2000`; the group arithmetic can go
negative in JS, hence the `Int` intermediates. -/
def pageRowsOfGroups (buf : List Nat) (lenPage pageOffset numRowOffsets pageType : Nat) :
    List (Nat × Nat) :=
  let numRowGroups := (numRowOffsets + 15) / 16
  let heapPos := pageOffset + 40
  (List.range numRowGroups).flatMap fun groupIndex =>
    let groupBase : Int := (pageOffset : Int) + lenPage - groupIndex * 0x24
    if groupBase < (pageOffset : Int) ∨ groupBase > (pageOffset : Int) + lenPage then [] else
    if groupBase - 4 < (pageOffset : Int) + 40 then [] else
    let rowPresentFlags := readU16 buf (groupBase - 4).toNat
    (List.range 16).filterMap fun rowIndex =>
      if (rowPresentFlags >>> rowIndex) % 2 = 0 then none else
      let ofsRowPos : Int := groupBase - 6 - rowIndex * 2
      if ofsRowPos < (pageOffset : Int) + 40 ∨ ofsRowPos + 2 > (pageOffset : Int) + lenPage
      then none else
      let ofsRow := readU16 buf ofsRowPos.toNat
      let rowBase := heapPos + ofsRow
      if rowBase < pageOffset + 40 ∨ rowBase ≥ pageOffset + lenPage then none else
      some (rowBase, pageType)

/-- Rows the walk takes from page `pageIndex` (empty when the page is an
index page, of another type, or has no row offsets).  `packed & 0x1FFF`
is `packed % 8192`, `flags & 0x40 = 0` is `flags / 64 % 2 = 0`. -/
def pageEmit (buf : List Nat) (lenPage tableType pageIndex : Nat) : List (Nat × Nat) :=
  let pageOffset := pageIndex * lenPage
  let pageType := readU32 buf (pageOffset + 8)
  let numRowOffsets := readU32 buf (pageOffset + 24) % 8192
  let pageFlags := readU8 buf (pageOffset + 27)
  let isDataPage := (pageFlags / 64) % 2 = 0
  if isDataPage ∧ pageType = tableType ∧ numRowOffsets > 0 then
    pageRowsOfGroups buf lenPage pageOffset numRowOffsets pageType
  else []

/-- The `while` loop of `parseTablePages`.  Every iteration appends a page
index that is not yet in `visited` and the loop stops once
`visited.length > 10000`, so fuel `10001` makes the recursion exact (see
`walkAux_fuel_irrelevant`). -/
def walkAux (buf : List Nat) (lenPage tableType lastPage : Nat) :
    Nat → Nat → List Nat → WalkResult
  | 0, _, visited => ⟨visited, []⟩
  | fuel + 1, pageIndex, visited =>
    if pageIndex = 0 then ⟨visited, []⟩ else
    if visited.contains pageIndex then ⟨visited, []⟩ else
    let visited' := visited ++ [pageIndex]
    let pageOffset := pageIndex * lenPage
    if pageOffset + lenPage > buf.length then ⟨visited', []⟩ else
    if pageOffset + 40 > buf.length then ⟨visited', []⟩ else
    let nextPageIndex := readU32 buf (pageOffset + 12)
    let numRowOffsets := readU32 buf (pageOffset + 24) % 8192
    if numRowOffsets > 2000 then ⟨visited', []⟩ else
    let rows := pageEmit buf lenPage tableType pageIndex
    -- `nextPageIndex >= bufferLength / lenPage` of the source, exact for
    -- the reachable ranges (see module comment)
    if nextPageIndex = 0 ∨ nextPageIndex * lenPage ≥ buf.length then ⟨visited', rows⟩ else
    if pageIndex = lastPage then ⟨visited', rows⟩ else
    if visited'.length > 10000 then ⟨visited', rows⟩ else
    let r := walkAux buf lenPage tableType lastPage fuel nextPageIndex visited'
    ⟨r.visited, rows ++ r.rows⟩

/-- `parseTablePages`: walk a table's page chain, yielding the visited
pages and the rows passed to the callback. -/
def parseTablePages (buf : List Nat) (lenPage : Nat) (table : TableInfo) : WalkResult :=
  if table.firstPage * lenPage ≥ buf.length then ⟨[], []⟩ else
  walkAux buf lenPage table.type table.lastPage 10001 table.firstPage []

/-- The table descriptor list parsed from the file header (`offset 28`,
16 bytes each; descriptors with out-of-range page indices are skipped).
The source loop also stops at the first `i` with `28 + 16 i + 16 >
bufferLength`; since that condition is monotone in `i`, keeping it as a
filter is equivalent. -/
def readTables (buf : List Nat) (lenPage numTables : Nat) : List TableInfo :=
  (List.range numTables).filterMap fun i =>
    let off := 28 + 16 * i
    if off + 16 ≤ buf.length then
      let ty := readU32 buf off
      let firstPage := readU32 buf (off + 8)
      let lastPage := readU32 buf (off + 12)
      -- `firstPage > bufferLength / lenPage || lastPage > bufferLength / lenPage`
      if firstPage * lenPage > buf.length ∨ lastPage * lenPage > buf.length then none
      else some ⟨ty, firstPage, lastPage⟩
    else none

/-- First pass: the five lookup maps. -/
def lookupsOf (buf : List Nat) (lenPage : Nat) (tables : List TableInfo) : Lookups :=
  tables.foldl
    (fun m tb =>
      if tb.type = 2 ∨ tb.type = 3 ∨ tb.type = 1 ∨ tb.type = 5 ∨ tb.type = 4 then
        (parseTablePages buf lenPage tb).rows.foldl
          (fun m r => parseSimpleRow buf r.1 r.2 m) m
      else m)
    emptyLookups

/-- Second pass: the `playlistTree` map. -/
def treeOf (buf : List Nat) (lenPage : Nat) (tables : List TableInfo) :
    List (Nat × TreeNodeData) :=
  tables.foldl
    (fun m tb =>
      if tb.type = 7 then
        (parseTablePages buf lenPage tb).rows.foldl
          (fun m r => parsePlaylistTreeRow buf r.1 m) m
      else m)
    []

/-- Third pass: the `playlistEntries` map. -/
def entriesOf (buf : List Nat) (lenPage : Nat) (tables : List TableInfo) :
    List (Nat × List PEntry) :=
  tables.foldl
    (fun m tb =>
      if tb.type = 8 then
        (parseTablePages buf lenPage tb).rows.foldl
          (fun m r => parsePlaylistEntryRow buf r.1 m) m
      else m)
    []

/-- Fourth pass: the `trackData` map (`id → Track`, last writer wins). -/
def trackMapOf (buf : List Nat) (now lenPage : Nat) (tables : List TableInfo)
    (lookups : Lookups) : List (Nat × Track) :=
  tables.foldl
    (fun m tb =>
      if tb.type = 0 then
        (parseTablePages buf lenPage tb).rows.foldl
          (fun m r =>
            match parseTrackRow buf now lookups r.1 with
            | some tr => mapSet m tr.id tr
            | none => m)
          m
      else m)
    []

/-- Stable insertion by a `Nat` key (JS `Array.prototype.sort` with the
comparator `key a - key b` is a stable ascending sort; an element is
placed before the equal-keyed elements of the already-sorted tail, which
preserves the original relative order of ties). -/
def insertByKey {α : Type} (key : α → Nat) (a : α) : List α → List α
  | [] => [a]
  | b :: bs => if key a ≤ key b then a :: b :: bs else b :: insertByKey key a bs

/-- Stable ascending sort by a `Nat` key. -/
def sortByKey {α : Type} (key : α → Nat) : List α → List α
  | [] => []
  | a :: as => insertByKey key a (sortByKey key as)

/-- What the builder knows about one playlist before linking: the fields
of the `Playlist` object it creates (`children` still empty), plus the
`sortOrder` used to sort roots. -/
structure BasePlaylist where
  id : Nat
  name : String
  parentId : Option Nat
  isFolder : Bool
  sortKey : Nat
  trackIds : List Nat
deriving DecidableEq

/-- The `playlistMap.set(id, playlist)` loop: one `BasePlaylist` per tree
node, in tree-map order; `trackIds` are the node's entries sorted by
ascending `position`. -/
def baseOf (tree : List (Nat × TreeNodeData)) (entries : List (Nat × List PEntry)) :
    List BasePlaylist :=
  tree.map fun p =>
    let sortedEntries := sortByKey (fun e => e.position) ((mapGet entries p.1).getD [])
    { id := p.1
      name := p.2.name
      parentId := if p.2.parentId = 0 then none else some p.2.parentId
      isFolder := p.2.isFolder
      sortKey := p.2.sortOrder
      trackIds := sortedEntries.map (fun e => e.trackId) }

/-- The linking loop (`parent.children.push(playlist)` over the map in
insertion order) ties each node to the children whose `parentId` names it;
on the part of the object graph reachable from the roots the chains of
distinct ids are shorter than the number of nodes, so recursion with fuel
`base.length` reproduces the JS pointer structure exactly. -/
def buildNode (base : List BasePlaylist) : Nat → BasePlaylist → Playlist
  | 0, b =>
    { id := b.id, name := b.name, parentId := b.parentId, isFolder := b.isFolder
      children := [], trackIds := b.trackIds }
  | fuel + 1, b =>
    { id := b.id, name := b.name, parentId := b.parentId, isFolder := b.isFolder
      children := (base.filter fun c => c.parentId = some b.id).map (buildNode base fuel)
      trackIds := b.trackIds }

/-- The root list: nodes without parent, stably sorted by `sortOrder`
(the JS comparator reads `playlistTree.get(a.id)?.sortOrder ?? 0`, which
is the node's own `sortKey`). -/
def forestOf (base : List BasePlaylist) : List Playlist :=
  (sortByKey (fun b => b.sortKey) (base.filter fun b => b.parentId = none)).map
    (buildNode base base.length)

/-- Everything `parseRekordboxDatabase` does after the header checks. -/
def buildLibrary (buf : List Nat) (now lenPage numTables : Nat) : RekordboxDatabase :=
  let tables := readTables buf lenPage numTables
  let lookups := lookupsOf buf lenPage tables
  let tree := treeOf buf lenPage tables
  let entries := entriesOf buf lenPage tables
  let trackMap := trackMapOf buf now lenPage tables lookups
  { tracks := trackMap.map (fun p => p.2)
    playlists := forestOf (baseOf tree entries) }

/-- `parseRekordboxDatabase` (hardened variant): file-size cap, header
checks, then the four passes and the assembly.  `now` is the wall clock
observed by this call (used only for tracks without a date-added string). -/
def parseRekordboxDatabase (buf : List Nat) (now : Nat) :
    Except String RekordboxDatabase :=
  if buf.length > 500 * 1024 * 1024 then .error "File too large" else
  if buf.length < 28 then .error "File too small to be a valid Rekordbox database" else
  let lenPage := readU32 buf 4
  let numTables := readU32 buf 8
  if numTables > 1000 then .error "Invalid number of tables" else
  if lenPage < 512 ∨ lenPage > 1024 * 1024 then .error "Invalid page length" else
  .ok (buildLibrary buf now lenPage numTables)

/-- The exportExt merge of `useRekordbox.ts` (`handleFileInput` and
`selectFolder`): fill `bpm` and `genre` of the primary library's tracks
from the secondary library, matching by track id
(`new Map(extDb.tracks.map(t => [t.id, t]))`). -/
def extByIdOf (B : RekordboxDatabase) : List (Nat × Track) :=
  B.tracks.foldl (fun m t => mapSet m t.id t) []

def mergeLibraries (A B : RekordboxDatabase) : RekordboxDatabase :=
  let extById := extByIdOf B
  { A with
    tracks := A.tracks.map fun t =>
      match mapGet extById t.id with
      | none => t
      | some ext =>
        { t with
          bpm := if t.bpm > 0 then t.bpm else ext.bpm
          genre := if t.genre ≠ "" then t.genre else ext.genre } }

/-- Concrete test buffer `buf1` (1024 bytes). -/
def buf1 : List Nat :=
  [0, 0, 0, 0, 0, 2, 0, 0, 1, 0, 0, 0, 0, 0, 0, 0, 0, 0, 0, 0, 0, 0, 0, 0, 0, 0, 0, 0, 7, 0, 0, 0, 0, 0,
   0, 0, 1, 0, 0, 0, 1, 0, 0, 0, 0, 0, 0, 0, 0, 0, 0, 0, 0, 0, 0, 0, 0, 0, 0, 0, 0, 0, 0, 0, 0, 0, 0, 0,
   0, 0, 0, 0, 0, 0, 0, 0, 0, 0, 0, 0, 0, 0, 0, 0, 0, 0, 0, 0, 0, 0, 0, 0, 0, 0, 0, 0, 0, 0, 0, 0, 0, 0,
   0, 0, 0, 0, 0, 0, 0, 0, 0, 0, 0, 0, 0, 0, 0, 0, 0, 0, 0, 0, 0, 0, 0, 0, 0, 0, 0, 0, 0, 0, 0, 0, 0, 0,
   0, 0, 0, 0, 0, 0, 0, 0, 0, 0, 0, 0, 0, 0, 0, 0, 0, 0, 0, 0, 0, 0, 0, 0, 0, 0, 0, 0, 0, 0, 0, 0, 0, 0,
   0, 0, 0, 0, 0, 0, 0, 0, 0, 0, 0, 0, 0, 0, 0, 0, 0, 0, 0, 0, 0, 0, 0, 0, 0, 0, 0, 0, 0, 0, 0, 0, 0, 0,
   0, 0, 0, 0, 0, 0, 0, 0, 0, 0, 0, 0, 0, 0, 0, 0, 0, 0, 0, 0, 0, 0, 0, 0, 0, 0, 0, 0, 0, 0, 0, 0, 0, 0,
   0, 0, 0, 0, 0, 0, 0, 0, 0, 0, 0, 0, 0, 0, 0, 0, 0, 0, 0, 0, 0, 0, 0, 0, 0, 0, 0, 0, 0, 0, 0, 0, 0, 0,
   0, 0, 0, 0, 0, 0, 0, 0, 0, 0, 0, 0, 0, 0, 0, 0, 0, 0, 0, 0, 0, 0, 0, 0, 0, 0, 0, 0, 0, 0, 0, 0, 0, 0,
   0, 0, 0, 0, 0, 0, 0, 0, 0, 0, 0, 0, 0, 0, 0, 0, 0, 0, 0, 0, 0, 0, 0, 0, 0, 0, 0, 0, 0, 0, 0, 0, 0, 0,
   0, 0, 0, 0, 0, 0, 0, 0, 0, 0, 0, 0, 0, 0, 0, 0, 0, 0, 0, 0, 0, 0, 0, 0, 0, 0, 0, 0, 0, 0, 0, 0, 0, 0,
   0, 0, 0, 0, 0, 0, 0, 0, 0, 0, 0, 0, 0, 0, 0, 0, 0, 0, 0, 0, 0, 0, 0, 0, 0, 0, 0, 0, 0, 0, 0, 0, 0, 0,
   0, 0, 0, 0, 0, 0, 0, 0, 0, 0, 0, 0, 0, 0, 0, 0, 0, 0, 0, 0, 0, 0, 0, 0, 0, 0, 0, 0, 0, 0, 0, 0, 0, 0,
   0, 0, 0, 0, 0, 0, 0, 0, 0, 0, 0, 0, 0, 0, 0, 0, 0, 0, 0, 0, 0, 0, 0, 0, 0, 0, 0, 0, 0, 0, 0, 0, 0, 0,
   0, 0, 0, 0, 0, 0, 0, 0, 0, 0, 0, 0, 0, 0, 0, 0, 0, 0, 0, 0, 0, 0, 0, 0, 0, 0, 0, 0, 0, 0, 0, 0, 0, 0,
   0, 0, 0, 0, 0, 0, 0, 0, 0, 0, 7, 0, 0, 0, 0, 0, 0, 0, 0, 0, 0, 0, 0, 0, 0, 0, 1, 0, 0, 0, 0, 0, 0, 0,
   0, 0, 0, 0, 0, 0, 0, 0, 5, 0, 0, 0, 0, 0, 0, 0, 0, 0, 0, 0, 1, 0, 0, 0, 0, 0, 0, 0, 5, 65, 0, 0, 0,
   0, 0, 0, 0, 0, 0, 0, 0, 0, 0, 0, 0, 0, 0, 0, 0, 0, 0, 0, 0, 0, 0, 0, 0, 0, 0, 0, 0, 0, 0, 0, 0, 0, 0,
   0, 0, 0, 0, 0, 0, 0, 0, 0, 0, 0, 0, 0, 0, 0, 0, 0, 0, 0, 0, 0, 0, 0, 0, 0, 0, 0, 0, 0, 0, 0, 0, 0, 0,
   0, 0, 0, 0, 0, 0, 0, 0, 0, 0, 0, 0, 0, 0, 0, 0, 0, 0, 0, 0, 0, 0, 0, 0, 0, 0, 0, 0, 0, 0, 0, 0, 0, 0,
   0, 0, 0, 0, 0, 0, 0, 0, 0, 0, 0, 0, 0, 0, 0, 0, 0, 0, 0, 0, 0, 0, 0, 0, 0, 0, 0, 0, 0, 0, 0, 0, 0, 0,
   0, 0, 0, 0, 0, 0, 0, 0, 0, 0, 0, 0, 0, 0, 0, 0, 0, 0, 0, 0, 0, 0, 0, 0, 0, 0, 0, 0, 0, 0, 0, 0, 0, 0,
   0, 0, 0, 0, 0, 0, 0, 0, 0, 0, 0, 0, 0, 0, 0, 0, 0, 0, 0, 0, 0, 0, 0, 0, 0, 0, 0, 0, 0, 0, 0, 0, 0, 0,
   0, 0, 0, 0, 0, 0, 0, 0, 0, 0, 0, 0, 0, 0, 0, 0, 0, 0, 0, 0, 0, 0, 0, 0, 0, 0, 0, 0, 0, 0, 0, 0, 0, 0,
   0, 0, 0, 0, 0, 0, 0, 0, 0, 0, 0, 0, 0, 0, 0, 0, 0, 0, 0, 0, 0, 0, 0, 0, 0, 0, 0, 0, 0, 0, 0, 0, 0, 0,
   0, 0, 0, 0, 0, 0, 0, 0, 0, 0, 0, 0, 0, 0, 0, 0, 0, 0, 0, 0, 0, 0, 0, 0, 0, 0, 0, 0, 0, 0, 0, 0, 0, 0,
   0, 0, 0, 0, 0, 0, 0, 0, 0, 0, 0, 0, 0, 0, 0, 0, 0, 0, 0, 0, 0, 0, 0, 0, 0, 0, 0, 0, 0, 0, 0, 0, 0, 0,
   0, 0, 0, 0, 0, 0, 0, 0, 0, 0, 0, 0, 0, 0, 0, 0, 0, 0, 0, 0, 0, 0, 0, 0, 0, 0, 0, 0, 0, 0, 0, 0, 0, 0,
   0, 0, 0, 0, 0, 0, 0, 0, 0, 0, 0, 0, 0, 0, 0, 0, 0, 0, 0, 0, 0, 0, 0, 0, 0, 0, 0, 0, 0, 0, 0, 0, 0, 0,
   0, 0, 0, 0, 0, 0, 0, 0, 0, 0, 0, 0, 0, 0, 0, 0, 0, 0, 0, 0, 0, 0, 0, 0, 0, 0, 0, 0, 0, 0, 0, 0, 0, 0,
   0, 1, 0, 0, 0]

/-- Concrete test buffer `buf2` (1024 bytes). -/
def buf2 : List Nat :=
  [0, 0, 0, 0, 0, 2, 0, 0, 1, 0, 0, 0, 0, 0, 0, 0, 0, 0, 0, 0, 0, 0, 0, 0, 0, 0, 0, 0, 0, 0, 0, 0, 0, 0,
   0, 0, 1, 0, 0, 0, 1, 0, 0, 0, 0, 0, 0, 0, 0, 0, 0, 0, 0, 0, 0, 0, 0, 0, 0, 0, 0, 0, 0, 0, 0, 0, 0, 0,
   0, 0, 0, 0, 0, 0, 0, 0, 0, 0, 0, 0, 0, 0, 0, 0, 0, 0, 0, 0, 0, 0, 0, 0, 0, 0, 0, 0, 0, 0, 0, 0, 0, 0,
   0, 0, 0, 0, 0, 0, 0, 0, 0, 0, 0, 0, 0, 0, 0, 0, 0, 0, 0, 0, 0, 0, 0, 0, 0, 0, 0, 0, 0, 0, 0, 0, 0, 0,
   0, 0, 0, 0, 0, 0, 0, 0, 0, 0, 0, 0, 0, 0, 0, 0, 0, 0, 0, 0, 0, 0, 0, 0, 0, 0, 0, 0, 0, 0, 0, 0, 0, 0,
   0, 0, 0, 0, 0, 0, 0, 0, 0, 0, 0, 0, 0, 0, 0, 0, 0, 0, 0, 0, 0, 0, 0, 0, 0, 0, 0, 0, 0, 0, 0, 0, 0, 0,
   0, 0, 0, 0, 0, 0, 0, 0, 0, 0, 0, 0, 0, 0, 0, 0, 0, 0, 0, 0, 0, 0, 0, 0, 0, 0, 0, 0, 0, 0, 0, 0, 0, 0,
   0, 0, 0, 0, 0, 0, 0, 0, 0, 0, 0, 0, 0, 0, 0, 0, 0, 0, 0, 0, 0, 0, 0, 0, 0, 0, 0, 0, 0, 0, 0, 0, 0, 0,
   0, 0, 0, 0, 0, 0, 0, 0, 0, 0, 0, 0, 0, 0, 0, 0, 0, 0, 0, 0, 0, 0, 0, 0, 0, 0, 0, 0, 0, 0, 0, 0, 0, 0,
   0, 0, 0, 0, 0, 0, 0, 0, 0, 0, 0, 0, 0, 0, 0, 0, 0, 0, 0, 0, 0, 0, 0, 0, 0, 0, 0, 0, 0, 0, 0, 0, 0, 0,
   0, 0, 0, 0, 0, 0, 0, 0, 0, 0, 0, 0, 0, 0, 0, 0, 0, 0, 0, 0, 0, 0, 0, 0, 0, 0, 0, 0, 0, 0, 0, 0, 0, 0,
   0, 0, 0, 0, 0, 0, 0, 0, 0, 0, 0, 0, 0, 0, 0, 0, 0, 0, 0, 0, 0, 0, 0, 0, 0, 0, 0, 0, 0, 0, 0, 0, 0, 0,
   0, 0, 0, 0, 0, 0, 0, 0, 0, 0, 0, 0, 0, 0, 0, 0, 0, 0, 0, 0, 0, 0, 0, 0, 0, 0, 0, 0, 0, 0, 0, 0, 0, 0,
   0, 0, 0, 0, 0, 0, 0, 0, 0, 0, 0, 0, 0, 0, 0, 0, 0, 0, 0, 0, 0, 0, 0, 0, 0, 0, 0, 0, 0, 0, 0, 0, 0, 0,
   0, 0, 0, 0, 0, 0, 0, 0, 0, 0, 0, 0, 0, 0, 0, 0, 0, 0, 0, 0, 0, 0, 0, 0, 0, 0, 0, 0, 0, 0, 0, 0, 0, 0,
   0, 0, 0, 0, 0, 0, 0, 0, 0, 0, 0, 0, 0, 0, 0, 0, 0, 0, 0, 0, 0, 0, 0, 0, 0, 0, 1, 0, 0, 0, 0, 0, 0, 0,
   0, 0, 0, 0, 0, 0, 0, 0, 0, 0, 0, 0, 0, 0, 0, 0, 0, 0, 0, 0, 0, 0, 0, 0, 0, 0, 0, 0, 0, 0, 0, 0, 0, 0,
   0, 0, 0, 0, 0, 0, 0, 0, 0, 0, 0, 0, 0, 0, 0, 0, 0, 0, 0, 0, 0, 0, 0, 0, 0, 0, 0, 0, 0, 0, 0, 0, 0, 0,
   0, 0, 0, 0, 0, 0, 0, 0, 0, 0, 0, 0, 1, 0, 0, 0, 0, 0, 0, 0, 0, 0, 0, 0, 0, 0, 0, 0, 0, 0, 0, 0, 0, 0,
   0, 0, 0, 0, 0, 0, 0, 0, 0, 0, 0, 0, 0, 0, 0, 0, 0, 0, 0, 0, 0, 0, 0, 0, 0, 0, 0, 0, 0, 0, 0, 0, 0, 0,
   0, 0, 0, 0, 0, 0, 0, 0, 0, 0, 0, 0, 0, 0, 0, 0, 0, 0, 0, 0, 0, 0, 0, 0, 0, 0, 0, 0, 0, 0, 0, 0, 0, 0,
   0, 0, 0, 0, 0, 0, 0, 0, 0, 0, 0, 0, 0, 0, 0, 0, 0, 0, 0, 0, 0, 0, 0, 0, 0, 0, 0, 0, 0, 0, 0, 0, 0, 0,
   0, 0, 0, 0, 0, 0, 0, 0, 0, 0, 0, 0, 0, 0, 0, 0, 0, 0, 0, 0, 0, 0, 0, 0, 0, 0, 0, 0, 0, 0, 0, 0, 0, 0,
   0, 0, 0, 0, 0, 0, 0, 0, 0, 0, 0, 0, 0, 0, 0, 0, 0, 0, 0, 0, 0, 0, 0, 0, 0, 0, 0, 0, 0, 0, 0, 0, 0, 0,
   0, 0, 0, 0, 0, 0, 0, 0, 0, 0, 0, 0, 0, 0, 0, 0, 0, 0, 0, 0, 0, 0, 0, 0, 0, 0, 0, 0, 0, 0, 0, 0, 0, 0,
   0, 0, 0, 0, 0, 0, 0, 0, 0, 0, 0, 0, 0, 0, 0, 0, 0, 0, 0, 0, 0, 0, 0, 0, 0, 0, 0, 0, 0, 0, 0, 0, 0, 0,
   0, 0, 0, 0, 0, 0, 0, 0, 0, 0, 0, 0, 0, 0, 0, 0, 0, 0, 0, 0, 0, 0, 0, 0, 0, 0, 0, 0, 0, 0, 0, 0, 0, 0,
   0, 0, 0, 0, 0, 0, 0, 0, 0, 0, 0, 0, 0, 0, 0, 0, 0, 0, 0, 0, 0, 0, 0, 0, 0, 0, 0, 0, 0, 0, 0, 0, 0, 0,
   0, 0, 0, 0, 0, 0, 0, 0, 0, 0, 0, 0, 0, 0, 0, 0, 0, 0, 0, 0, 0, 0, 0, 0, 0, 0, 0, 0, 0, 0, 0, 0, 0, 0,
   0, 0, 0, 0, 0, 0, 0, 0, 0, 0, 0, 0, 0, 0, 0, 0, 0, 0, 0, 0, 0, 0, 0, 0, 0, 0, 0, 0, 0, 0, 0, 0, 0, 0,
   1, 0, 0, 0]

/-- Concrete test buffer `buf3` (1536 bytes). -/
def buf3 : List Nat :=
  [0, 0, 0, 0, 0, 2, 0, 0, 2, 0, 0, 0, 0, 0, 0, 0, 0, 0, 0, 0, 0, 0, 0, 0, 0, 0, 0, 0, 7, 0, 0, 0, 0, 0,
   0, 0, 1, 0, 0, 0, 1, 0, 0, 0, 8, 0, 0, 0, 0, 0, 0, 0, 2, 0, 0, 0, 2, 0, 0, 0, 0, 0, 0, 0, 0, 0, 0, 0,
   0, 0, 0, 0, 0, 0, 0, 0, 0, 0, 0, 0, 0, 0, 0, 0, 0, 0, 0, 0, 0, 0, 0, 0, 0, 0, 0, 0, 0, 0, 0, 0, 0, 0,
   0, 0, 0, 0, 0, 0, 0, 0, 0, 0, 0, 0, 0, 0, 0, 0, 0, 0, 0, 0, 0, 0, 0, 0, 0, 0, 0, 0, 0, 0, 0, 0, 0, 0,
   0, 0, 0, 0, 0, 0, 0, 0, 0, 0, 0, 0, 0, 0, 0, 0, 0, 0, 0, 0, 0, 0, 0, 0, 0, 0, 0, 0, 0, 0, 0, 0, 0, 0,
   0, 0, 0, 0, 0, 0, 0, 0, 0, 0, 0, 0, 0, 0, 0, 0, 0, 0, 0, 0, 0, 0, 0, 0, 0, 0, 0, 0, 0, 0, 0, 0, 0, 0,
   0, 0, 0, 0, 0, 0, 0, 0, 0, 0, 0, 0, 0, 0, 0, 0, 0, 0, 0, 0, 0, 0, 0, 0, 0, 0, 0, 0, 0, 0, 0, 0, 0, 0,
   0, 0, 0, 0, 0, 0, 0, 0, 0, 0, 0, 0, 0, 0, 0, 0, 0, 0, 0, 0, 0, 0, 0, 0, 0, 0, 0, 0, 0, 0, 0, 0, 0, 0,
   0, 0, 0, 0, 0, 0, 0, 0, 0, 0, 0, 0, 0, 0, 0, 0, 0, 0, 0, 0, 0, 0, 0, 0, 0, 0, 0, 0, 0, 0, 0, 0, 0, 0,
   0, 0, 0, 0, 0, 0, 0, 0, 0, 0, 0, 0, 0, 0, 0, 0, 0, 0, 0, 0, 0, 0, 0, 0, 0, 0, 0, 0, 0, 0, 0, 0, 0, 0,
   0, 0, 0, 0, 0, 0, 0, 0, 0, 0, 0, 0, 0, 0, 0, 0, 0, 0, 0, 0, 0, 0, 0, 0, 0, 0, 0, 0, 0, 0, 0, 0, 0, 0,
   0, 0, 0, 0, 0, 0, 0, 0, 0, 0, 0, 0, 0, 0, 0, 0, 0, 0, 0, 0, 0, 0, 0, 0, 0, 0, 0, 0, 0, 0, 0, 0, 0, 0,
   0, 0, 0, 0, 0, 0, 0, 0, 0, 0, 0, 0, 0, 0, 0, 0, 0, 0, 0, 0, 0, 0, 0, 0, 0, 0, 0, 0, 0, 0, 0, 0, 0, 0,
   0, 0, 0, 0, 0, 0, 0, 0, 0, 0, 0, 0, 0, 0, 0, 0, 0, 0, 0, 0, 0, 0, 0, 0, 0, 0, 0, 0, 0, 0, 0, 0, 0, 0,
   0, 0, 0, 0, 0, 0, 0, 0, 0, 0, 0, 0, 0, 0, 0, 0, 0, 0, 0, 0, 0, 0, 0, 0, 0, 0, 0, 0, 0, 0, 0, 0, 0, 0,
   0, 0, 0, 0, 0, 0, 0, 0, 0, 0, 7, 0, 0, 0, 0, 0, 0, 0, 0, 0, 0, 0, 0, 0, 0, 0, 1, 0, 0, 0, 0, 0, 0, 0,
   0, 0, 0, 0, 0, 0, 0, 0, 0, 0, 0, 0, 0, 0, 0, 0, 0, 0, 0, 0, 1, 0, 0, 0, 0, 0, 0, 0, 5, 65, 0, 0, 0,
   0, 0, 0, 0, 0, 0, 0, 0, 0, 0, 0, 0, 0, 0, 0, 0, 0, 0, 0, 0, 0, 0, 0, 0, 0, 0, 0, 0, 0, 0, 0, 0, 0, 0,
   0, 0, 0, 0, 0, 0, 0, 0, 0, 0, 0, 0, 0, 0, 0, 0, 0, 0, 0, 0, 0, 0, 0, 0, 0, 0, 0, 0, 0, 0, 0, 0, 0, 0,
   0, 0, 0, 0, 0, 0, 0, 0, 0, 0, 0, 0, 0, 0, 0, 0, 0, 0, 0, 0, 0, 0, 0, 0, 0, 0, 0, 0, 0, 0, 0, 0, 0, 0,
   0, 0, 0, 0, 0, 0, 0, 0, 0, 0, 0, 0, 0, 0, 0, 0, 0, 0, 0, 0, 0, 0, 0, 0, 0, 0, 0, 0, 0, 0, 0, 0, 0, 0,
   0, 0, 0, 0, 0, 0, 0, 0, 0, 0, 0, 0, 0, 0, 0, 0, 0, 0, 0, 0, 0, 0, 0, 0, 0, 0, 0, 0, 0, 0, 0, 0, 0, 0,
   0, 0, 0, 0, 0, 0, 0, 0, 0, 0, 0, 0, 0, 0, 0, 0, 0, 0, 0, 0, 0, 0, 0, 0, 0, 0, 0, 0, 0, 0, 0, 0, 0, 0,
   0, 0, 0, 0, 0, 0, 0, 0, 0, 0, 0, 0, 0, 0, 0, 0, 0, 0, 0, 0, 0, 0, 0, 0, 0, 0, 0, 0, 0, 0, 0, 0, 0, 0,
   0, 0, 0, 0, 0, 0, 0, 0, 0, 0, 0, 0, 0, 0, 0, 0, 0, 0, 0, 0, 0, 0, 0, 0, 0, 0, 0, 0, 0, 0, 0, 0, 0, 0,
   0, 0, 0, 0, 0, 0, 0, 0, 0, 0, 0, 0, 0, 0, 0, 0, 0, 0, 0, 0, 0, 0, 0, 0, 0, 0, 0, 0, 0, 0, 0, 0, 0, 0,
   0, 0, 0, 0, 0, 0, 0, 0, 0, 0, 0, 0, 0, 0, 0, 0, 0, 0, 0, 0, 0, 0, 0, 0, 0, 0, 0, 0, 0, 0, 0, 0, 0, 0,
   0, 0, 0, 0, 0, 0, 0, 0, 0, 0, 0, 0, 0, 0, 0, 0, 0, 0, 0, 0, 0, 0, 0, 0, 0, 0, 0, 0, 0, 0, 0, 0, 0, 0,
   0, 0, 0, 0, 0, 0, 0, 0, 0, 0, 0, 0, 0, 0, 0, 0, 0, 0, 0, 0, 0, 0, 0, 0, 0, 0, 0, 0, 0, 0, 0, 0, 0, 0,
   0, 0, 0, 0, 0, 0, 0, 0, 0, 0, 0, 0, 0, 0, 0, 0, 0, 0, 0, 0, 0, 0, 0, 0, 0, 0, 0, 0, 0, 0, 0, 0, 0, 0,
   0, 1, 0, 0, 0, 0, 0, 0, 0, 0, 0, 0, 0, 8, 0, 0, 0, 0, 0, 0, 0, 0, 0, 0, 0, 0, 0, 0, 0, 2, 0, 0, 0, 0,
   0, 0, 0, 0, 0, 0, 0, 0, 0, 0, 0, 2, 0, 0, 0, 10, 0, 0, 0, 1, 0, 0, 0, 1, 0, 0, 0, 11, 0, 0, 0, 1, 0,
   0, 0, 0, 0, 0, 0, 0, 0, 0, 0, 0, 0, 0, 0, 0, 0, 0, 0, 0, 0, 0, 0, 0, 0, 0, 0, 0, 0, 0, 0, 0, 0, 0, 0,
   0, 0, 0, 0, 0, 0, 0, 0, 0, 0, 0, 0, 0, 0, 0, 0, 0, 0, 0, 0, 0, 0, 0, 0, 0, 0, 0, 0, 0, 0, 0, 0, 0, 0,
   0, 0, 0, 0, 0, 0, 0, 0, 0, 0, 0, 0, 0, 0, 0, 0, 0, 0, 0, 0, 0, 0, 0, 0, 0, 0, 0, 0, 0, 0, 0, 0, 0, 0,
   0, 0, 0, 0, 0, 0, 0, 0, 0, 0, 0, 0, 0, 0, 0, 0, 0, 0, 0, 0, 0, 0, 0, 0, 0, 0, 0, 0, 0, 0, 0, 0, 0, 0,
   0, 0, 0, 0, 0, 0, 0, 0, 0, 0, 0, 0, 0, 0, 0, 0, 0, 0, 0, 0, 0, 0, 0, 0, 0, 0, 0, 0, 0, 0, 0, 0, 0, 0,
   0, 0, 0, 0, 0, 0, 0, 0, 0, 0, 0, 0, 0, 0, 0, 0, 0, 0, 0, 0, 0, 0, 0, 0, 0, 0, 0, 0, 0, 0, 0, 0, 0, 0,
   0, 0, 0, 0, 0, 0, 0, 0, 0, 0, 0, 0, 0, 0, 0, 0, 0, 0, 0, 0, 0, 0, 0, 0, 0, 0, 0, 0, 0, 0, 0, 0, 0, 0,
   0, 0, 0, 0, 0, 0, 0, 0, 0, 0, 0, 0, 0, 0, 0, 0, 0, 0, 0, 0, 0, 0, 0, 0, 0, 0, 0, 0, 0, 0, 0, 0, 0, 0,
   0, 0, 0, 0, 0, 0, 0, 0, 0, 0, 0, 0, 0, 0, 0, 0, 0, 0, 0, 0, 0, 0, 0, 0, 0, 0, 0, 0, 0, 0, 0, 0, 0, 0,
   0, 0, 0, 0, 0, 0, 0, 0, 0, 0, 0, 0, 0, 0, 0, 0, 0, 0, 0, 0, 0, 0, 0, 0, 0, 0, 0, 0, 0, 0, 0, 0, 0, 0,
   0, 0, 0, 0, 0, 0, 0, 0, 0, 0, 0, 0, 0, 0, 0, 0, 0, 0, 0, 0, 0, 0, 0, 0, 0, 0, 0, 0, 0, 0, 0, 0, 0, 0,
   0, 0, 0, 0, 0, 0, 0, 0, 0, 0, 0, 0, 0, 0, 0, 0, 0, 0, 0, 0, 0, 0, 0, 0, 0, 0, 0, 0, 0, 0, 0, 0, 0, 0,
   0, 0, 0, 0, 0, 0, 0, 0, 0, 0, 0, 0, 0, 0, 0, 0, 0, 0, 0, 0, 0, 0, 0, 0, 0, 0, 0, 0, 0, 0, 0, 0, 0, 0,
   12, 0, 0, 0, 3, 0, 0, 0]

/-- Concrete test buffer `buf4` (1024 bytes). -/
def buf4 : List Nat :=
  [0, 0, 0, 0, 0, 2, 0, 0, 1, 0, 0, 0, 0, 0, 0, 0, 0, 0, 0, 0, 0, 0, 0, 0, 0, 0, 0, 0, 7, 0, 0, 0, 0, 0,
   0, 0, 1, 0, 0, 0, 1, 0, 0, 0, 0, 0, 0, 0, 0, 0, 0, 0, 0, 0, 0, 0, 0, 0, 0, 0, 0, 0, 0, 0, 0, 0, 0, 0,
   0, 0, 0, 0, 0, 0, 0, 0, 0, 0, 0, 0, 0, 0, 0, 0, 0, 0, 0, 0, 0, 0, 0, 0, 0, 0, 0, 0, 0, 0, 0, 0, 0, 0,
   0, 0, 0, 0, 0, 0, 0, 0, 0, 0, 0, 0, 0, 0, 0, 0, 0, 0, 0, 0, 0, 0, 0, 0, 0, 0, 0, 0, 0, 0, 0, 0, 0, 0,
   0, 0, 0, 0, 0, 0, 0, 0, 0, 0, 0, 0, 0, 0, 0, 0, 0, 0, 0, 0, 0, 0, 0, 0, 0, 0, 0, 0, 0, 0, 0, 0, 0, 0,
   0, 0, 0, 0, 0, 0, 0, 0, 0, 0, 0, 0, 0, 0, 0, 0, 0, 0, 0, 0, 0, 0, 0, 0, 0, 0, 0, 0, 0, 0, 0, 0, 0, 0,
   0, 0, 0, 0, 0, 0, 0, 0, 0, 0, 0, 0, 0, 0, 0, 0, 0, 0, 0, 0, 0, 0, 0, 0, 0, 0, 0, 0, 0, 0, 0, 0, 0, 0,
   0, 0, 0, 0, 0, 0, 0, 0, 0, 0, 0, 0, 0, 0, 0, 0, 0, 0, 0, 0, 0, 0, 0, 0, 0, 0, 0, 0, 0, 0, 0, 0, 0, 0,
   0, 0, 0, 0, 0, 0, 0, 0, 0, 0, 0, 0, 0, 0, 0, 0, 0, 0, 0, 0, 0, 0, 0, 0, 0, 0, 0, 0, 0, 0, 0, 0, 0, 0,
   0, 0, 0, 0, 0, 0, 0, 0, 0, 0, 0, 0, 0, 0, 0, 0, 0, 0, 0, 0, 0, 0, 0, 0, 0, 0, 0, 0, 0, 0, 0, 0, 0, 0,
   0, 0, 0, 0, 0, 0, 0, 0, 0, 0, 0, 0, 0, 0, 0, 0, 0, 0, 0, 0, 0, 0, 0, 0, 0, 0, 0, 0, 0, 0, 0, 0, 0, 0,
   0, 0, 0, 0, 0, 0, 0, 0, 0, 0, 0, 0, 0, 0, 0, 0, 0, 0, 0, 0, 0, 0, 0, 0, 0, 0, 0, 0, 0, 0, 0, 0, 0, 0,
   0, 0, 0, 0, 0, 0, 0, 0, 0, 0, 0, 0, 0, 0, 0, 0, 0, 0, 0, 0, 0, 0, 0, 0, 0, 0, 0, 0, 0, 0, 0, 0, 0, 0,
   0, 0, 0, 0, 0, 0, 0, 0, 0, 0, 0, 0, 0, 0, 0, 0, 0, 0, 0, 0, 0, 0, 0, 0, 0, 0, 0, 0, 0, 0, 0, 0, 0, 0,
   0, 0, 0, 0, 0, 0, 0, 0, 0, 0, 0, 0, 0, 0, 0, 0, 0, 0, 0, 0, 0, 0, 0, 0, 0, 0, 0, 0, 0, 0, 0, 0, 0, 0,
   0, 0, 0, 0, 0, 0, 0, 0, 0, 0, 7, 0, 0, 0, 0, 0, 0, 0, 0, 0, 0, 0, 0, 0, 0, 0, 2, 0, 0, 0, 0, 0, 0, 0,
   0, 0, 0, 0, 0, 0, 0, 0, 0, 0, 0, 0, 0, 0, 0, 0, 0, 0, 0, 0, 1, 0, 0, 0, 0, 0, 0, 0, 5, 65, 0, 0, 0,
   0, 5, 0, 0, 0, 0, 0, 0, 0, 1, 0, 0, 0, 1, 0, 0, 0, 0, 0, 0, 0, 5, 66, 0, 0, 0, 0, 0, 0, 0, 0, 0, 0,
   0, 0, 0, 0, 0, 0, 0, 0, 0, 0, 0, 0, 0, 0, 0, 0, 0, 0, 0, 0, 0, 0, 0, 0, 0, 0, 0, 0, 0, 0, 0, 0, 0, 0,
   0, 0, 0, 0, 0, 0, 0, 0, 0, 0, 0, 0, 0, 0, 0, 0, 0, 0, 0, 0, 0, 0, 0, 0, 0, 0, 0, 0, 0, 0, 0, 0, 0, 0,
   0, 0, 0, 0, 0, 0, 0, 0, 0, 0, 0, 0, 0, 0, 0, 0, 0, 0, 0, 0, 0, 0, 0, 0, 0, 0, 0, 0, 0, 0, 0, 0, 0, 0,
   0, 0, 0, 0, 0, 0, 0, 0, 0, 0, 0, 0, 0, 0, 0, 0, 0, 0, 0, 0, 0, 0, 0, 0, 0, 0, 0, 0, 0, 0, 0, 0, 0, 0,
   0, 0, 0, 0, 0, 0, 0, 0, 0, 0, 0, 0, 0, 0, 0, 0, 0, 0, 0, 0, 0, 0, 0, 0, 0, 0, 0, 0, 0, 0, 0, 0, 0, 0,
   0, 0, 0, 0, 0, 0, 0, 0, 0, 0, 0, 0, 0, 0, 0, 0, 0, 0, 0, 0, 0, 0, 0, 0, 0, 0, 0, 0, 0, 0, 0, 0, 0, 0,
   0, 0, 0, 0, 0, 0, 0, 0, 0, 0, 0, 0, 0, 0, 0, 0, 0, 0, 0, 0, 0, 0, 0, 0, 0, 0, 0, 0, 0, 0, 0, 0, 0, 0,
   0, 0, 0, 0, 0, 0, 0, 0, 0, 0, 0, 0, 0, 0, 0, 0, 0, 0, 0, 0, 0, 0, 0, 0, 0, 0, 0, 0, 0, 0, 0, 0, 0, 0,
   0, 0, 0, 0, 0, 0, 0, 0, 0, 0, 0, 0, 0, 0, 0, 0, 0, 0, 0, 0, 0, 0, 0, 0, 0, 0, 0, 0, 0, 0, 0, 0, 0, 0,
   0, 0, 0, 0, 0, 0, 0, 0, 0, 0, 0, 0, 0, 0, 0, 0, 0, 0, 0, 0, 0, 0, 0, 0, 0, 0, 0, 0, 0, 0, 0, 0, 0, 0,
   0, 0, 0, 0, 0, 0, 0, 0, 0, 0, 0, 0, 0, 0, 0, 0, 0, 0, 0, 0, 0, 0, 0, 0, 0, 0, 0, 0, 0, 0, 0, 0, 0, 0,
   0, 0, 0, 0, 0, 0, 0, 0, 0, 0, 0, 0, 0, 0, 0, 0, 0, 0, 0, 0, 0, 0, 0, 0, 0, 0, 0, 0, 0, 0, 0, 0, 26,
   0, 0, 0, 3, 0, 0, 0]

/-- Concrete test buffer `buf5` (1024 bytes). -/
def buf5 : List Nat :=
  [0, 0, 0, 0, 0, 0, 0, 0, 0, 0, 0, 0, 0, 0, 0, 0, 0, 0, 0, 0, 0, 0, 0, 0, 0, 0, 0, 0, 0, 0, 0, 0, 0, 0,
   0, 0, 0, 0, 0, 0, 0, 0, 0, 0, 0, 0, 0, 0, 0, 0, 0, 0, 0, 0, 0, 0, 0, 0, 0, 0, 0, 0, 0, 0, 0, 0, 0, 0,
   0, 0, 0, 0, 0, 0, 0, 0, 0, 0, 0, 0, 0, 0, 0, 0, 0, 0, 0, 0, 0, 0, 0, 0, 0, 0, 0, 0, 0, 0, 0, 0, 0, 0,
   0, 0, 0, 0, 0, 0, 0, 0, 0, 0, 0, 0, 0, 0, 0, 0, 0, 0, 0, 0, 0, 0, 0, 0, 0, 0, 0, 0, 0, 0, 0, 0, 0, 0,
   0, 0, 0, 0, 0, 0, 0, 0, 0, 0, 0, 0, 0, 0, 0, 0, 0, 0, 0, 0, 0, 0, 0, 0, 0, 0, 0, 0, 0, 0, 0, 0, 0, 0,
   0, 0, 0, 0, 0, 0, 0, 0, 0, 0, 0, 0, 0, 0, 0, 0, 0, 0, 0, 0, 0, 0, 0, 0, 0, 0, 0, 0, 0, 0, 0, 0, 0, 0,
   0, 0, 0, 0, 0, 0, 0, 0, 0, 0, 0, 0, 0, 0, 0, 0, 0, 0, 0, 0, 0, 0, 0, 0, 0, 0, 0, 0, 0, 0, 0, 0, 0, 0,
   0, 0, 0, 0, 0, 0, 0, 0, 0, 0, 0, 0, 0, 0, 0, 0, 0, 0, 0, 0, 0, 0, 0, 0, 0, 0, 0, 0, 0, 0, 0, 0, 0, 0,
   0, 0, 0, 0, 0, 0, 0, 0, 0, 0, 0, 0, 0, 0, 0, 0, 0, 0, 0, 0, 0, 0, 0, 0, 0, 0, 0, 0, 0, 0, 0, 0, 0, 0,
   0, 0, 0, 0, 0, 0, 0, 0, 0, 0, 0, 0, 0, 0, 0, 0, 0, 0, 0, 0, 0, 0, 0, 0, 0, 0, 0, 0, 0, 0, 0, 0, 0, 0,
   0, 0, 0, 0, 0, 0, 0, 0, 0, 0, 0, 0, 0, 0, 0, 0, 0, 0, 0, 0, 0, 0, 0, 0, 0, 0, 0, 0, 0, 0, 0, 0, 0, 0,
   0, 0, 0, 0, 0, 0, 0, 0, 0, 0, 0, 0, 0, 0, 0, 0, 0, 0, 0, 0, 0, 0, 0, 0, 0, 0, 0, 0, 0, 0, 0, 0, 0, 0,
   0, 0, 0, 0, 0, 0, 0, 0, 0, 0, 0, 0, 0, 0, 0, 0, 0, 0, 0, 0, 0, 0, 0, 0, 0, 0, 0, 0, 0, 0, 0, 0, 0, 0,
   0, 0, 0, 0, 0, 0, 0, 0, 0, 0, 0, 0, 0, 0, 0, 0, 0, 0, 0, 0, 0, 0, 0, 0, 0, 0, 0, 0, 0, 0, 0, 0, 0, 0,
   0, 0, 0, 0, 0, 0, 0, 0, 0, 0, 0, 0, 0, 0, 0, 0, 0, 0, 0, 0, 0, 0, 0, 0, 0, 0, 0, 0, 0, 0, 0, 0, 0, 0,
   0, 0, 0, 0, 0, 0, 0, 0, 0, 0, 4, 0, 0, 0, 1, 0, 0, 0, 0, 0, 0, 0, 0, 0, 0, 0, 0, 0, 0, 0, 0, 0, 0, 0,
   0, 0, 0, 0, 0, 0, 0, 0, 0, 0, 0, 0, 0, 0, 0, 0, 0, 0, 0, 0, 0, 0, 0, 0, 0, 0, 0, 0, 0, 0, 0, 0, 0, 0,
   0, 0, 0, 0, 0, 0, 0, 0, 0, 0, 0, 0, 0, 0, 0, 0, 0, 0, 0, 0, 0, 0, 0, 0, 0, 0, 0, 0, 0, 0, 0, 0, 0, 0,
   0, 0, 0, 0, 0, 0, 0, 0, 0, 0, 0, 0, 0, 0, 0, 0, 0, 0, 0, 0, 0, 0, 0, 0, 0, 0, 0, 0, 0, 0, 0, 0, 0, 0,
   0, 0, 0, 0, 0, 0, 0, 0, 0, 0, 0, 0, 0, 0, 0, 0, 0, 0, 0, 0, 0, 0, 0, 0, 0, 0, 0, 0, 0, 0, 0, 0, 0, 0,
   0, 0, 0, 0, 0, 0, 0, 0, 0, 0, 0, 0, 0, 0, 0, 0, 0, 0, 0, 0, 0, 0, 0, 0, 0, 0, 0, 0, 0, 0, 0, 0, 0, 0,
   0, 0, 0, 0, 0, 0, 0, 0, 0, 0, 0, 0, 0, 0, 0, 0, 0, 0, 0, 0, 0, 0, 0, 0, 0, 0, 0, 0, 0, 0, 0, 0, 0, 0,
   0, 0, 0, 0, 0, 0, 0, 0, 0, 0, 0, 0, 0, 0, 0, 0, 0, 0, 0, 0, 0, 0, 0, 0, 0, 0, 0, 0, 0, 0, 0, 0, 0, 0,
   0, 0, 0, 0, 0, 0, 0, 0, 0, 0, 0, 0, 0, 0, 0, 0, 0, 0, 0, 0, 0, 0, 0, 0, 0, 0, 0, 0, 0, 0, 0, 0, 0, 0,
   0, 0, 0, 0, 0, 0, 0, 0, 0, 0, 0, 0, 0, 0, 0, 0, 0, 0, 0, 0, 0, 0, 0, 0, 0, 0, 0, 0, 0, 0, 0, 0, 0, 0,
   0, 0, 0, 0, 0, 0, 0, 0, 0, 0, 0, 0, 0, 0, 0, 0, 0, 0, 0, 0, 0, 0, 0, 0, 0, 0, 0, 0, 0, 0, 0, 0, 0, 0,
   0, 0, 0, 0, 0, 0, 0, 0, 0, 0, 0, 0, 0, 0, 0, 0, 0, 0, 0, 0, 0, 0, 0, 0, 0, 0, 0, 0, 0, 0, 0, 0, 0, 0,
   0, 0, 0, 0, 0, 0, 0, 0, 0, 0, 0, 0, 0, 0, 0, 0, 0, 0, 0, 0, 0, 0, 0, 0, 0, 0, 0, 0, 0, 0, 0, 0, 0, 0,
   0, 0, 0, 0, 0, 0, 0, 0, 0, 0, 0, 0, 0, 0, 0, 0, 0, 0, 0, 0, 0, 0, 0, 0, 0, 0, 0, 0, 0, 0, 0, 0, 0, 0,
   0, 0, 0, 0, 0, 0, 0, 0, 0, 0, 0, 0, 0, 0, 0, 0, 0, 0, 0, 0, 0, 0, 0, 0, 0, 0, 0, 0, 0, 0, 0, 0, 0, 0,
   0, 0, 0, 0]

section MapLemmas

variable {α : Type}

theorem mapGet_cons (a : Nat) (b : α) (m : List (Nat × α)) (k : Nat) :
    mapGet ((a, b) :: m) k = if a = k then some b else mapGet m k := by
  by_cases h : a = k <;> simp [mapGet, List.find?, h]

theorem mapGet_nil (k : Nat) : mapGet ([] : List (Nat × α)) k = none := rfl

theorem mapGet_eq_none_of_not_mem (m : List (Nat × α)) (k : Nat)
    (h : k ∉ m.map Prod.fst) : mapGet m k = none := by
  induction m with
  | nil => rfl
  | cons q m ih =>
    rw [show q = (q.1, q.2) from rfl, mapGet_cons]
    rw [if_neg (fun hq : q.1 = k => h (by simp [← hq]))]
    exact ih (fun hk => h (by simp [hk]))

theorem mapGet_append (m₁ m₂ : List (Nat × α)) (k : Nat) :
    mapGet (m₁ ++ m₂) k = (mapGet m₁ k).or (mapGet m₂ k) := by
  induction m₁ with
  | nil => simp [mapGet_nil, Option.or]
  | cons q m₁ ih =>
    rw [show q = (q.1, q.2) from rfl, List.cons_append, mapGet_cons, mapGet_cons]
    by_cases hq : q.1 = k
    · simp [hq, Option.or]
    · simp [hq, ih]

theorem mem_keys_iff_any (m : List (Nat × α)) (k : Nat) :
    (m.any fun p => p.1 = k) = true ↔ k ∈ m.map Prod.fst := by
  constructor
  · intro h
    rcases List.any_eq_true.1 h with ⟨p, hp, hpk⟩
    simp only [decide_eq_true_eq] at hpk
    exact List.mem_map.2 ⟨p, hp, hpk⟩
  · intro h
    rcases List.mem_map.1 h with ⟨p, hp, hpk⟩
    exact List.any_eq_true.2 ⟨p, hp, by simp [hpk]⟩

theorem keys_mapSet (m : List (Nat × α)) (k : Nat) (v : α) :
    (mapSet m k v).map Prod.fst =
      if k ∈ m.map Prod.fst then m.map Prod.fst else m.map Prod.fst ++ [k] := by
  unfold mapSet
  by_cases h : k ∈ m.map Prod.fst
  · rw [if_pos ((mem_keys_iff_any m k).2 h), if_pos h, List.map_map]
    apply List.map_congr_left
    intro p hp
    by_cases hk : p.1 = k <;> simp [hk]
  · rw [if_neg (fun ha => h ((mem_keys_iff_any m k).1 ha)), if_neg h]
    simp

theorem nodup_keys_mapSet (m : List (Nat × α)) (k : Nat) (v : α)
    (h : (m.map Prod.fst).Nodup) : ((mapSet m k v).map Prod.fst).Nodup := by
  rw [keys_mapSet]
  by_cases hk : k ∈ m.map Prod.fst
  · simpa [hk]
  · simp only [hk, if_false]
    rw [List.nodup_append]
    refine ⟨h, List.nodup_singleton k, ?_⟩
    intro a ha hak
    simp only [List.mem_singleton] at hak
    exact hk (hak ▸ ha)

theorem mapGet_map_overwrite (m : List (Nat × α)) (k : Nat) (v : α)
    (hmem : k ∈ m.map Prod.fst) :
    mapGet (m.map fun p => if p.1 = k then (k, v) else p) k = some v := by
  induction m with
  | nil => cases hmem
  | cons q m ih =>
    by_cases hq : q.1 = k
    · simp [List.map_cons, if_pos hq, mapGet_cons]
    · simp only [List.map_cons, if_neg hq]
      rw [show q = (q.1, q.2) from rfl, mapGet_cons, if_neg hq]
      apply ih
      rcases List.mem_map.1 hmem with ⟨p, hp, hpk⟩
      rcases List.mem_cons.1 hp with hp | hp
      · exact absurd (hp ▸ hpk) hq
      · exact List.mem_map.2 ⟨p, hp, hpk⟩

theorem mapGet_mapSet_self (m : List (Nat × α)) (k : Nat) (v : α) :
    mapGet (mapSet m k v) k = some v := by
  unfold mapSet
  by_cases h : k ∈ m.map Prod.fst
  · rw [if_pos ((mem_keys_iff_any m k).2 h)]
    exact mapGet_map_overwrite m k v h
  · rw [if_neg (fun ha => h ((mem_keys_iff_any m k).1 ha)), mapGet_append]
    rw [mapGet_eq_none_of_not_mem m k h]
    simp [mapGet_cons, Option.or]

theorem mapGet_mapSet_ne (m : List (Nat × α)) (k k' : Nat) (v : α) (h : k' ≠ k) :
    mapGet (mapSet m k v) k' = mapGet m k' := by
  unfold mapSet
  by_cases hmem : k ∈ m.map Prod.fst
  · rw [if_pos ((mem_keys_iff_any m k).2 hmem)]
    clear hmem
    induction m with
    | nil => rfl
    | cons q m ih =>
      by_cases hq : q.1 = k
      · simp only [List.map_cons, if_pos hq, mapGet_cons]
        rw [show q = (q.1, q.2) from rfl, mapGet_cons]
        rw [if_neg (fun hk : k = k' => h hk.symm), if_neg (fun hk : q.1 = k' => h (hq ▸ hk).symm)]
        exact ih
      · simp only [List.map_cons, if_neg hq]
        rw [show q = (q.1, q.2) from rfl, mapGet_cons, mapGet_cons, ih]
  · rw [if_neg (fun ha => hmem ((mem_keys_iff_any m k).1 ha)), mapGet_append]
    rw [mapGet_cons, if_neg (fun hk : k = k' => h hk.symm), mapGet_nil]
    cases mapGet m k' <;> simp [Option.or]

theorem mapGet_eq_some_of_mem (m : List (Nat × α)) (k : Nat) (v : α)
    (hnd : (m.map Prod.fst).Nodup) (hmem : (k, v) ∈ m) : mapGet m k = some v := by
  induction m with
  | nil => cases hmem
  | cons q m ih =>
    rcases List.mem_cons.1 hmem with hm | hm
    · rw [← hm, mapGet_cons, if_pos rfl]
    · have hq : ¬ q.1 = k := by
        intro hq
        have hk : k ∈ m.map Prod.fst := List.mem_map.2 ⟨(k, v), hm, rfl⟩
        rw [List.map_cons, List.nodup_cons] at hnd
        exact hnd.1 (hq ▸ hk)
      rw [show q = (q.1, q.2) from rfl, mapGet_cons, if_neg hq]
      rw [List.map_cons, List.nodup_cons] at hnd
      exact ih hnd.2 hm

theorem mem_of_mapGet_eq_some (m : List (Nat × α)) (k : Nat) (v : α)
    (h : mapGet m k = some v) : (k, v) ∈ m := by
  induction m with
  | nil => simp [mapGet_nil] at h
  | cons q m ih =>
    rw [show q = (q.1, q.2) from rfl, mapGet_cons] at h
    by_cases hq : q.1 = k
    · rw [if_pos hq] at h
      cases h
      exact hq ▸ List.mem_cons_self _ _
    · rw [if_neg hq] at h
      exact List.mem_cons_of_mem _ (ih h)

end MapLemmas

section SortLemmas

variable {α : Type} (key : α → Nat)

theorem insertByKey_perm (a : α) (l : List α) :
    List.Perm (insertByKey key a l) (a :: l) := by
  induction l with
  | nil => simp [insertByKey]
  | cons b bs ih =>
    unfold insertByKey
    by_cases h : key a ≤ key b
    · simp [h]
    · rw [if_neg h]
      exact List.Perm.trans (ih.cons b) (List.Perm.swap a b bs)

theorem sortByKey_perm (l : List α) : List.Perm (sortByKey key l) l := by
  induction l with
  | nil => exact List.Perm.refl []
  | cons a as ih =>
    exact List.Perm.trans (insertByKey_perm key a _) (ih.cons a)

theorem insertByKey_pairwise (a : α) (l : List α)
    (h : l.Pairwise fun x y => key x ≤ key y) :
    (insertByKey key a l).Pairwise fun x y => key x ≤ key y := by
  induction l with
  | nil => simp [insertByKey]
  | cons b bs ih =>
    rcases List.pairwise_cons.1 h with ⟨hb, hbs⟩
    unfold insertByKey
    by_cases hab : key a ≤ key b
    · rw [if_pos hab, List.pairwise_cons]
      refine ⟨?_, h⟩
      intro x hx
      rcases List.mem_cons.1 hx with hx | hx
      · exact hx ▸ hab
      · exact le_trans hab (hb x hx)
    · rw [if_neg hab, List.pairwise_cons]
      refine ⟨?_, ih hbs⟩
      intro x hx
      have hx' : x ∈ a :: bs := (insertByKey_perm key a bs).mem_iff.1 hx
      rcases List.mem_cons.1 hx' with hx' | hx'
      · exact hx' ▸ le_of_not_le hab
      · exact hb x hx'

theorem sortByKey_pairwise (l : List α) :
    (sortByKey key l).Pairwise fun x y => key x ≤ key y := by
  induction l with
  | nil => simp [sortByKey]
  | cons a as ih => exact insertByKey_pairwise key a _ ih

end SortLemmas

/-- Claim C5: the device-string decoder is a total function into strings
(it is defined for every buffer and offset and never raises), and the four
boundary behaviors hold: a short-ASCII tag encoding length 1 (tag byte 3)
yields `""`; a long-ASCII header with length field exactly 4 yields `""`;
an even tag other than `0x40` and `0x90` yields `""`; and a length that
would read past the end of the buffer (short or long form) yields `""`. -/
theorem readDeviceSqlString_boundaries (buf : List Nat) (offset : Nat) :
    (readU8 buf offset = 3 → readDeviceSqlString buf offset = "") ∧
    (readU8 buf offset = 0x40 → readU16 buf (offset + 1) = 4 →
      readDeviceSqlString buf offset = "") ∧
    (readU8 buf offset % 2 = 0 → readU8 buf offset ≠ 0x40 → readU8 buf offset ≠ 0x90 →
      readDeviceSqlString buf offset = "") ∧
    (readU8 buf offset % 2 = 1 → offset + readU8 buf offset / 2 > buf.length →
      readDeviceSqlString buf offset = "") ∧
    (readU8 buf offset = 0x40 → 4 ≤ readU16 buf (offset + 1) →
      offset + readU16 buf (offset + 1) > buf.length →
      readDeviceSqlString buf offset = "") := by
  refine ⟨?_, ?_, ?_, ?_, ?_⟩
  · intro h3
    by_cases hoff : offset ≥ buf.length
    · simp [readDeviceSqlString, hoff]
    · simp [readDeviceSqlString, hoff, h3, sliceBytes, asciiDecode]
  · intro h40 h4
    by_cases hoff : offset ≥ buf.length
    · simp [readDeviceSqlString, hoff]
    · by_cases hoff4 : offset + 4 ≥ buf.length
      · simp [readDeviceSqlString, hoff, h40, hoff4]
      · simp only [readDeviceSqlString, if_neg hoff, h40, if_pos rfl, if_pos hoff4]
        simp [hoff4, h4, sliceBytes, asciiDecode]
  · intro heven h40 h90
    have hodd : ¬ readU8 buf offset % 2 = 1 := by omega
    by_cases hoff : offset ≥ buf.length
    · simp [readDeviceSqlString, hoff]
    · simp [readDeviceSqlString, hoff, h40, h90, hodd]
  · intro hodd hover
    by_cases hoff : offset ≥ buf.length
    · simp [readDeviceSqlString, hoff]
    · have h40 : readU8 buf offset ≠ 0x40 := by intro h; rw [h] at hodd; omega
      have h90 : readU8 buf offset ≠ 0x90 := by intro h; rw [h] at hodd; omega
      by_cases h1 : readU8 buf offset / 2 < 1
      · simp [readDeviceSqlString, hoff, h40, h90, hodd, h1]
      · by_cases h127 : readU8 buf offset / 2 > 127
        · simp [readDeviceSqlString, hoff, h40, h90, hodd, h127]
        · have hbound : offset + 1 + (readU8 buf offset / 2 - 1) > buf.length := by omega
          simp [readDeviceSqlString, hoff, h40, h90, hodd, h1, h127, hbound]
  · intro h40 hge hover
    by_cases hoff : offset ≥ buf.length
    · simp [readDeviceSqlString, hoff]
    · by_cases hoff4 : offset + 4 ≥ buf.length
      · simp [readDeviceSqlString, hoff, h40, hoff4]
      · by_cases h65 : readU16 buf (offset + 1) > 65535
        · simp [readDeviceSqlString, hoff, h40, hoff4, h65]
        · have hlt : ¬ readU16 buf (offset + 1) < 4 := by omega
          have hbound : offset + 4 + (readU16 buf (offset + 1) - 4) > buf.length := by omega
          simp [readDeviceSqlString, hoff, h40, hoff4, h65, hlt, hbound]

/-- Witness for `readDeviceSqlString_boundaries`: each boundary case at a
concrete buffer. -/
theorem readDeviceSqlString_boundaries_witness :
    readDeviceSqlString [3] 0 = "" ∧
    readDeviceSqlString [0x40, 4, 0, 0, 9] 0 = "" ∧
    readDeviceSqlString [2] 0 = "" ∧
    readDeviceSqlString [7, 65] 0 = "" ∧
    readDeviceSqlString [0x40, 10, 0, 0, 9] 0 = "" :=
  ⟨(readDeviceSqlString_boundaries [3] 0).1 (by decide),
   (readDeviceSqlString_boundaries [0x40, 4, 0, 0, 9] 0).2.1 (by decide) (by decide),
   (readDeviceSqlString_boundaries [2] 0).2.2.1 (by decide) (by decide) (by decide),
   (readDeviceSqlString_boundaries [7, 65] 0).2.2.2.1 (by decide) (by decide),
   (readDeviceSqlString_boundaries [0x40, 10, 0, 0, 9] 0).2.2.2.2 (by decide) (by decide)
     (by decide)⟩

set_option maxRecDepth 60000

set_option maxHeartbeats 1000000

/-- Claim C4: a decoded track row yields a track only if `id > 0`,
`tempo ≤ 50000`, `duration ≤ 36000` and `bitrate ≤ 10000`; in particular a
row with duration 36001, with tempo 50001, or with id 0 produces no
track. -/
theorem parseTrackRow_gates (buf : List Nat) (now : Nat) (m : Lookups) (rowBase : Nat) :
    (parseTrackRow buf now m rowBase ≠ none →
      0 < readU32 buf (rowBase + 0x48) ∧ readU32 buf (rowBase + 0x38) ≤ 50000 ∧
      readU16 buf (rowBase + 0x54) ≤ 36000 ∧ readU32 buf (rowBase + 0x30) ≤ 10000) ∧
    (readU16 buf (rowBase + 0x54) = 36001 → parseTrackRow buf now m rowBase = none) ∧
    (readU32 buf (rowBase + 0x38) = 50001 → parseTrackRow buf now m rowBase = none) ∧
    (readU32 buf (rowBase + 0x48) = 0 → parseTrackRow buf now m rowBase = none) := by
  have hidn : readU32 buf (rowBase + 0x48) = 0 → parseTrackRow buf now m rowBase = none := by
    intro h
    simp only [parseTrackRow]
    repeat' split
    all_goals rfl
  have htempn : readU32 buf (rowBase + 0x38) > 50000 →
      parseTrackRow buf now m rowBase = none := by
    intro h
    simp only [parseTrackRow]
    repeat' split
    all_goals rfl
  have hdurn : readU16 buf (rowBase + 0x54) > 36000 →
      parseTrackRow buf now m rowBase = none := by
    intro h
    simp only [parseTrackRow]
    repeat' split
    all_goals rfl
  have hbitn : readU32 buf (rowBase + 0x30) > 10000 →
      parseTrackRow buf now m rowBase = none := by
    intro h
    simp only [parseTrackRow]
    repeat' split
    all_goals rfl
  refine ⟨?_, fun h => hdurn (by omega), fun h => htempn (by omega), hidn⟩
  intro hsome
  refine ⟨?_, ?_, ?_, ?_⟩
  · by_contra h
    exact hsome (hidn (by omega))
  · by_contra h
    exact hsome (htempn (by omega))
  · by_contra h
    exact hsome (hdurn (by omega))
  · by_contra h
    exact hsome (hbitn (by omega))

/-- Witness for `parseTrackRow_gates`: the track row of `buf2` (which is
emitted) satisfies the gates, and concrete rows with duration 36001, tempo
50001 and id 0 are dropped. -/
theorem parseTrackRow_gates_witness :
    (0 < readU32 buf2 (552 + 0x48) ∧ readU32 buf2 (552 + 0x38) ≤ 50000 ∧
      readU16 buf2 (552 + 0x54) ≤ 36000 ∧ readU32 buf2 (552 + 0x30) ≤ 10000) ∧
    parseTrackRow (List.replicate 0x54 0 ++ [0xA1, 0x8C] ++ List.replicate 50 0) 0
      emptyLookups 0 = none ∧
    parseTrackRow (List.replicate 0x38 0 ++ [0x51, 0xC3, 0, 0] ++ List.replicate 50 0) 0
      emptyLookups 0 = none ∧
    parseTrackRow (List.replicate 140 0) 0 emptyLookups 0 = none :=
  ⟨(parseTrackRow_gates buf2 0 emptyLookups 552).1 (by decide),
   (parseTrackRow_gates _ 0 emptyLookups 0).2.1 (by decide),
   (parseTrackRow_gates _ 0 emptyLookups 0).2.2.1 (by decide),
   (parseTrackRow_gates _ 0 emptyLookups 0).2.2.2 (by decide)⟩

/-- Claim C6: the top-level decode returns an error exactly when the input
exceeds the 500 MiB size cap, is shorter than the 28-byte header,
declares more than 1000 tables, or a `page_len` outside `[512, 1 MiB]`;
on every other input it returns a library (never a partial result). -/
theorem parseRekordboxDatabase_error_iff (buf : List Nat) (now : Nat) :
    ((∃ e, parseRekordboxDatabase buf now = .error e) ↔
      (buf.length > 500 * 1024 * 1024 ∨ buf.length < 28 ∨ readU32 buf 8 > 1000 ∨
        readU32 buf 4 < 512 ∨ readU32 buf 4 > 1024 * 1024)) ∧
    ((∃ lib, parseRekordboxDatabase buf now = .ok lib) ↔
      ¬ (buf.length > 500 * 1024 * 1024 ∨ buf.length < 28 ∨ readU32 buf 8 > 1000 ∨
        readU32 buf 4 < 512 ∨ readU32 buf 4 > 1024 * 1024)) := by
  by_cases h1 : buf.length > 500 * 1024 * 1024
  · constructor
    · simp [parseRekordboxDatabase, h1]
    · simp [parseRekordboxDatabase, h1]
  · by_cases h2 : buf.length < 28
    · constructor
      · simp [parseRekordboxDatabase, h1, h2]
      · simp [parseRekordboxDatabase, h1, h2]
    · by_cases h3 : readU32 buf 8 > 1000
      · constructor
        · simp [parseRekordboxDatabase, h1, h2, h3]
        · simp [parseRekordboxDatabase, h1, h2, h3]
      · by_cases h4 : readU32 buf 4 < 512 ∨ readU32 buf 4 > 1024 * 1024
        · constructor
          · simp only [parseRekordboxDatabase, if_neg h1, if_neg h2, if_neg h3, if_pos h4]
            constructor
            · intro _; tauto
            · intro _; exact ⟨_, rfl⟩
          · simp only [parseRekordboxDatabase, if_neg h1, if_neg h2, if_neg h3, if_pos h4]
            constructor
            · rintro ⟨lib, hlib⟩; cases hlib
            · intro hcon; exact absurd (by tauto) hcon
        · constructor
          · simp only [parseRekordboxDatabase, if_neg h1, if_neg h2, if_neg h3, if_neg h4]
            simp only [not_or] at h4
            simp [h1, h2, h3, h4.1, h4.2]
          · simp only [parseRekordboxDatabase, if_neg h1, if_neg h2, if_neg h3, if_neg h4]
            simp only [not_or] at h4
            simp [h1, h2, h3, h4.1, h4.2]

theorem mapGet_extByIdOf_isSome (B : RekordboxDatabase) (i : Nat) :
    (mapGet (extByIdOf B) i).isSome = true ↔ i ∈ B.tracks.map Track.id := by
  have main : ∀ (l : List Track) (m₀ : List (Nat × Track)),
      (mapGet (l.foldl (fun m t => mapSet m t.id t) m₀) i).isSome = true ↔
        ((mapGet m₀ i).isSome = true ∨ i ∈ l.map Track.id) := by
    intro l
    induction l with
    | nil => simp
    | cons t l ih =>
      intro m₀
      rw [List.foldl_cons, ih]
      by_cases hid : i = t.id
      · subst hid
        simp [mapGet_mapSet_self]
      · rw [mapGet_mapSet_ne _ _ _ _ hid]
        simp only [List.map_cons, List.mem_cons]
        constructor
        · rintro (h | h)
          · exact Or.inl h
          · exact Or.inr (Or.inr h)
        · rintro (h | h | h)
          · exact Or.inl h
          · exact absurd h hid
          · exact Or.inr h
  rw [extByIdOf, main]
  simp [mapGet_nil]

/-- Claim C7: the merge keeps `A`'s playlists; every track of `A` keeps all
its fields except that `bpm` is taken from its `B` counterpart when
`A`'s bpm is not positive and `genre` when `A`'s genre is empty; tracks of
`A` without a counterpart are unchanged; no track that exists only in `B`
appears (the output's track ids are exactly `A`'s, in order).  The
counterpart of `t` is `mapGet (extByIdOf B) t.id`, which is some track of
`B` with equal id whenever one exists (last conjunct). -/
theorem mergeLibraries_spec (A B : RekordboxDatabase) :
    (mergeLibraries A B).playlists = A.playlists ∧
    (mergeLibraries A B).tracks.map Track.id = A.tracks.map Track.id ∧
    List.Forall₂
      (fun t r =>
        r.id = t.id ∧ r.title = t.title ∧ r.artist = t.artist ∧ r.album = t.album ∧
        r.duration = t.duration ∧ r.key = t.key ∧ r.rating = t.rating ∧
        r.bitrate = t.bitrate ∧ r.filePath = t.filePath ∧ r.dateAdded = t.dateAdded ∧
        (mapGet (extByIdOf B) t.id = none → r.bpm = t.bpm ∧ r.genre = t.genre) ∧
        (∀ ext, mapGet (extByIdOf B) t.id = some ext →
          r.bpm = (if t.bpm > 0 then t.bpm else ext.bpm) ∧
          r.genre = (if t.genre = "" then ext.genre else t.genre)))
      A.tracks (mergeLibraries A B).tracks ∧
    (∀ i, (mapGet (extByIdOf B) i).isSome = true ↔ i ∈ B.tracks.map Track.id) := by
  refine ⟨rfl, ?_, ?_, mapGet_extByIdOf_isSome B⟩
  · show (A.tracks.map _).map Track.id = A.tracks.map Track.id
    rw [List.map_map]
    apply List.map_congr_left
    intro t _
    simp only [Function.comp]
    cases h : mapGet (extByIdOf B) t.id <;> simp [h]
  · show List.Forall₂ _ A.tracks (A.tracks.map _)
    induction A.tracks with
    | nil => exact List.Forall₂.nil
    | cons t l ih =>
      rw [List.map_cons]
      refine List.Forall₂.cons ?_ ih
      cases h : mapGet (extByIdOf B) t.id with
      | none =>
        refine ⟨rfl, rfl, rfl, rfl, rfl, rfl, rfl, rfl, rfl, rfl, fun _ => ⟨rfl, rfl⟩, ?_⟩
        intro ext hext
        cases hext
      | some e =>
        refine ⟨rfl, rfl, rfl, rfl, rfl, rfl, rfl, rfl, rfl, rfl, ?_, ?_⟩
        · intro hnone; cases hnone
        · intro ext hext
          cases hext
          refine ⟨rfl, ?_⟩
          by_cases hg : t.genre = "" <;> simp [hg]

theorem extByIdOf_eq_of_nodup (B : RekordboxDatabase)
    (hnd : (B.tracks.map Track.id).Nodup) :
    extByIdOf B = B.tracks.map fun t => (t.id, t) := by
  have main : ∀ (l : List Track) (m₀ : List (Nat × Track)),
      (l.map Track.id).Nodup →
      (∀ t ∈ l, t.id ∉ m₀.map Prod.fst) →
      l.foldl (fun m t => mapSet m t.id t) m₀ = m₀ ++ l.map fun t => (t.id, t) := by
    intro l
    induction l with
    | nil => simp
    | cons t l ih =>
      intro m₀ hnd hdisj
      rw [List.map_cons, List.nodup_cons] at hnd
      rw [List.foldl_cons]
      have hset : mapSet m₀ t.id t = m₀ ++ [(t.id, t)] := by
        unfold mapSet
        rw [if_neg]
        intro hany
        exact hdisj t (List.mem_cons_self t l) ((mem_keys_iff_any m₀ t.id).1 hany)
      rw [hset, ih (m₀ ++ [(t.id, t)]) hnd.2]
      · simp
      · intro u hu
        rw [List.map_append, List.mem_append]
        rintro (hk | hk)
        · exact hdisj u (List.mem_cons_of_mem t hu) hk
        · simp only [List.map_cons, List.map_nil, List.mem_singleton] at hk
          exact hnd.1 (hk ▸ List.mem_map.2 ⟨u, hu, rfl⟩)
  rw [extByIdOf, main B.tracks [] hnd (by simp)]
  simp

/-- Claim C8: merging a library with itself (as both primary and
secondary) is the identity.  `A` is a decoder output, so its track ids are
unique (§3 `Library` invariant, enforced by the id-keyed `trackData`
map). -/
theorem mergeLibraries_self (A : RekordboxDatabase)
    (hnd : (A.tracks.map Track.id).Nodup) : mergeLibraries A A = A := by
  have hget : ∀ t ∈ A.tracks, mapGet (extByIdOf A) t.id = some t := by
    intro t ht
    rw [extByIdOf_eq_of_nodup A hnd]
    apply mapGet_eq_some_of_mem
    · rw [List.map_map]
      simpa [Function.comp] using hnd
    · exact List.mem_map.2 ⟨t, ht, rfl⟩
  have htracks : (mergeLibraries A A).tracks = A.tracks := by
    show A.tracks.map _ = A.tracks
    have hcongr : ∀ t ∈ A.tracks,
        (fun t =>
          match mapGet (extByIdOf A) t.id with
          | none => t
          | some ext =>
            { t with
              bpm := if t.bpm > 0 then t.bpm else ext.bpm
              genre := if t.genre ≠ "" then t.genre else ext.genre }) t = id t := by
      intro t ht
      simp only [id]
      rw [hget t ht]
      simp only [ite_self]
    rw [List.map_congr_left hcongr, List.map_id]
  calc mergeLibraries A A = { A with tracks := (mergeLibraries A A).tracks } := rfl
    _ = { A with tracks := A.tracks } := by rw [htracks]
    _ = A := rfl

/-- Witness for `mergeLibraries_self`: a one-track library (unique ids)
is a fixed point of the self merge. -/
theorem mergeLibraries_self_witness :
    mergeLibraries
      ⟨[⟨1, "t", "a", "b", "", 10, 0, "k", 0, 0, "p", .clockNow 0⟩], []⟩
      ⟨[⟨1, "t", "a", "b", "", 10, 0, "k", 0, 0, "p", .clockNow 0⟩], []⟩ =
      ⟨[⟨1, "t", "a", "b", "", 10, 0, "k", 0, 0, "p", .clockNow 0⟩], []⟩ :=
  mergeLibraries_self ⟨[⟨1, "t", "a", "b", "", 10, 0, "k", 0, 0, "p", .clockNow 0⟩], []⟩
    (by decide)

theorem walkAux_visited_nodup (buf : List Nat) (lenPage tableType lastPage : Nat) :
    ∀ (fuel p : Nat) (visited : List Nat), visited.Nodup →
      (walkAux buf lenPage tableType lastPage fuel p visited).visited.Nodup := by
  intro fuel
  induction fuel with
  | zero => intro p visited h; exact h
  | succ fuel ih =>
    intro p visited h
    simp only [walkAux]
    by_cases h0 : p = 0
    · rw [if_pos h0]; exact h
    rw [if_neg h0]
    by_cases hc : visited.contains p = true
    · rw [if_pos hc]; exact h
    rw [if_neg hc]
    have hp : p ∉ visited := fun hmem => hc (by simpa using hmem)
    have hnd' : (visited ++ [p]).Nodup := by
      rw [List.nodup_append]
      refine ⟨h, List.nodup_singleton p, ?_⟩
      intro a ha hb
      simp only [List.mem_singleton] at hb
      exact hp (hb ▸ ha)
    split
    · exact hnd'
    split
    · exact hnd'
    split
    · exact hnd'
    split
    · exact hnd'
    split
    · exact hnd'
    split
    · exact hnd'
    exact ih _ _ hnd'

theorem walkAux_fuel_irrelevant (buf : List Nat) (lenPage tableType lastPage : Nat) :
    ∀ (f₁ f₂ p : Nat) (visited : List Nat),
      1 ≤ f₁ → 10001 ≤ f₁ + visited.length →
      1 ≤ f₂ → 10001 ≤ f₂ + visited.length →
      walkAux buf lenPage tableType lastPage f₁ p visited =
        walkAux buf lenPage tableType lastPage f₂ p visited := by
  intro f₁
  induction f₁ with
  | zero => intro f₂ p visited h1 _ _ _; omega
  | succ f₁ ih =>
    intro f₂ p visited _ hlen1 hf2 hlen2
    cases f₂ with
    | zero => omega
    | succ f₂ =>
      simp only [walkAux, List.length_append, List.length_singleton]
      repeat' split
      any_goals rfl
      have hlen : (visited ++ [p]).length = visited.length + 1 := by simp
      rw [ih f₂ _ (visited ++ [p]) (by omega) (by rw [hlen]; omega) (by omega)
        (by rw [hlen]; omega)]


theorem walkAux_selfLoop (buf : List Nat) (lenPage tableType lastPage P fuel : Nat)
    (hpos : 0 < P)
    (hfit : P * lenPage + lenPage ≤ buf.length)
    (h40 : P * lenPage + 40 ≤ buf.length)
    (hself : readU32 buf (P * lenPage + 12) = P)
    (hro : readU32 buf (P * lenPage + 24) % 8192 ≤ 2000) :
    walkAux buf lenPage tableType lastPage (fuel + 2) P [] =
      ⟨[P], pageEmit buf lenPage tableType P⟩ := by
  simp only [walkAux]
  rw [if_neg (show ¬ P = 0 by omega)]
  rw [if_neg (show ¬ ([] : List Nat).contains P = true by simp)]
  rw [if_neg (show ¬ P * lenPage + lenPage > buf.length by omega)]
  rw [if_neg (show ¬ P * lenPage + 40 > buf.length by omega)]
  rw [if_neg (show ¬ readU32 buf (P * lenPage + 24) % 8192 > 2000 by omega)]
  rw [hself]
  by_cases hnp : P = 0 ∨ P * lenPage ≥ buf.length
  · rw [if_pos hnp]
    simp
  · rw [if_neg hnp]
    by_cases hlast : P = lastPage
    · rw [if_pos hlast]
      simp
    · rw [if_neg hlast]
      rw [if_neg (show ¬ (([] : List Nat) ++ [P]).length > 10000 by simp)]
      rw [if_neg (show ¬ P = 0 by omega)]
      rw [if_pos (show (([] : List Nat) ++ [P]).contains P = true by simp)]
      simp

/-- Claim C3: the page walk visits each page index at most once (its
visited list has no duplicates) and terminates — the fuel `10001` built
into `parseTablePages` is a fixed point: any larger fuel computes the same
result, i.e. the loop always breaks within the cap.  In particular, when
the first page's `next_page` field equals its own index, the walk emits
that page's rows once and stops with exactly that page visited; the walk
is a total function, so no error reaches the caller. -/
theorem parseTablePages_spec (buf : List Nat) (lenPage : Nat) (tb : TableInfo) :
    (parseTablePages buf lenPage tb).visited.Nodup ∧
    (∀ f, 10001 ≤ f →
      walkAux buf lenPage tb.type tb.lastPage f tb.firstPage [] =
        walkAux buf lenPage tb.type tb.lastPage 10001 tb.firstPage []) ∧
    (0 < tb.firstPage →
      tb.firstPage * lenPage + lenPage ≤ buf.length →
      tb.firstPage * lenPage + 40 ≤ buf.length →
      readU32 buf (tb.firstPage * lenPage + 12) = tb.firstPage →
      readU32 buf (tb.firstPage * lenPage + 24) % 8192 ≤ 2000 →
      parseTablePages buf lenPage tb =
        ⟨[tb.firstPage], pageEmit buf lenPage tb.type tb.firstPage⟩) := by
  refine ⟨?_, ?_, ?_⟩
  · unfold parseTablePages
    split
    · exact List.nodup_nil
    · exact walkAux_visited_nodup buf lenPage tb.type tb.lastPage 10001 tb.firstPage []
        List.nodup_nil
  · intro f hf
    exact walkAux_fuel_irrelevant buf lenPage tb.type tb.lastPage f 10001 tb.firstPage []
      (by omega) (by simpa using hf) (by omega) (by simp)
  · intro hpos hfit h40 hself hro
    unfold parseTablePages
    rw [if_neg (show ¬ tb.firstPage * lenPage ≥ buf.length by omega)]
    rw [show (10001 : Nat) = 9999 + 2 from rfl]
    exact walkAux_selfLoop buf lenPage tb.type tb.lastPage tb.firstPage 9999 hpos hfit h40
      hself hro

/-- Witness for `parseTablePages_spec`: `buf5`'s single page points its
`next_page` at itself; the walk visits it once and stops. -/
theorem parseTablePages_spec_witness :
    parseTablePages buf5 512 ⟨4, 1, 2⟩ = ⟨[1], pageEmit buf5 512 4 1⟩ :=
  (parseTablePages_spec buf5 512 ⟨4, 1, 2⟩).2.2 (by decide) (by decide) (by decide)
    (by decide) (by decide)

/-- A node occurs somewhere in a playlist forest (as a root or nested
arbitrarily deep below one). -/
inductive MemForest : Playlist → List Playlist → Prop where
  | here {p : Playlist} {ps : List Playlist} : p ∈ ps → MemForest p ps
  | child {p q : Playlist} {ps : List Playlist} : q ∈ ps → MemForest p q.children →
      MemForest p ps

theorem not_memForest_nil (p : Playlist) : ¬ MemForest p [] := by
  intro h
  cases h with
  | here hp => cases hp
  | child hq _ => cases hq

/-- A base element is in `base` and is either a root or names another base
element as parent — exactly the elements `buildNode` ever descends to. -/
def GoodBase (base : List BasePlaylist) (b : BasePlaylist) : Prop :=
  b ∈ base ∧ (b.parentId = none ∨ ∃ b' ∈ base, b.parentId = some b'.id)

theorem buildNode_id (base : List BasePlaylist) (fuel : Nat) (b : BasePlaylist) :
    (buildNode base fuel b).id = b.id := by cases fuel <;> rfl

theorem buildNode_name (base : List BasePlaylist) (fuel : Nat) (b : BasePlaylist) :
    (buildNode base fuel b).name = b.name := by cases fuel <;> rfl

theorem buildNode_parentId (base : List BasePlaylist) (fuel : Nat) (b : BasePlaylist) :
    (buildNode base fuel b).parentId = b.parentId := by cases fuel <;> rfl

theorem buildNode_isFolder (base : List BasePlaylist) (fuel : Nat) (b : BasePlaylist) :
    (buildNode base fuel b).isFolder = b.isFolder := by cases fuel <;> rfl

theorem buildNode_trackIds (base : List BasePlaylist) (fuel : Nat) (b : BasePlaylist) :
    (buildNode base fuel b).trackIds = b.trackIds := by cases fuel <;> rfl

theorem buildNode_children (base : List BasePlaylist) (fuel : Nat) (b : BasePlaylist) :
    (buildNode base fuel b).children =
      match fuel with
      | 0 => []
      | fuel + 1 => (base.filter fun c => c.parentId = some b.id).map (buildNode base fuel) := by
  cases fuel <;> rfl

theorem buildNode_children_zero (base : List BasePlaylist) (b : BasePlaylist) :
    (buildNode base 0 b).children = [] := rfl

theorem buildNode_children_succ (base : List BasePlaylist) (fuel : Nat) (b : BasePlaylist) :
    (buildNode base (fuel + 1) b).children =
      (base.filter fun c => c.parentId = some b.id).map (buildNode base fuel) := rfl


/-- Every node of a forest built from good base elements is itself built
from a good base element. -/
theorem memForest_structure (base : List BasePlaylist) :
    ∀ (fuel : Nat) (l : List BasePlaylist) (p : Playlist),
      (∀ b ∈ l, GoodBase base b) →
      MemForest p (l.map (buildNode base fuel)) →
      ∃ b, GoodBase base b ∧ ∃ fuel', p = buildNode base fuel' b := by
  intro fuel
  induction fuel with
  | zero =>
    intro l p hl hmem
    cases hmem with
    | here hp =>
      rcases List.mem_map.1 hp with ⟨b, hb, rfl⟩
      exact ⟨b, hl b hb, 0, rfl⟩
    | child hq hpc =>
      rcases List.mem_map.1 hq with ⟨b, hb, rfl⟩
      rw [buildNode_children] at hpc
      exact absurd hpc (not_memForest_nil p)
  | succ fuel ih =>
    intro l p hl hmem
    cases hmem with
    | here hp =>
      rcases List.mem_map.1 hp with ⟨b, hb, rfl⟩
      exact ⟨b, hl b hb, fuel + 1, rfl⟩
    | child hq hpc =>
      rcases List.mem_map.1 hq with ⟨b, hb, rfl⟩
      rw [buildNode_children] at hpc
      apply ih (base.filter fun c => c.parentId = some b.id) p ?_ hpc
      intro c hc
      rw [List.mem_filter] at hc
      refine ⟨hc.1, Or.inr ⟨b, (hl b hb).1, ?_⟩⟩
      simpa using hc.2

/-- Every node of the built forest copies the fields of a good base
element with its id. -/
theorem memForest_forestOf (base : List BasePlaylist) (p : Playlist)
    (hmem : MemForest p (forestOf base)) :
    ∃ b, GoodBase base b ∧ p.id = b.id ∧ p.name = b.name ∧ p.parentId = b.parentId ∧
      p.isFolder = b.isFolder ∧ p.trackIds = b.trackIds := by
  unfold forestOf at hmem
  have hgood : ∀ b ∈ sortByKey (fun b => b.sortKey) (base.filter fun b => b.parentId = none),
      GoodBase base b := by
    intro b hb
    have hb' := (sortByKey_perm (fun b : BasePlaylist => b.sortKey) _).mem_iff.1 hb
    rw [List.mem_filter] at hb'
    exact ⟨hb'.1, Or.inl (by simpa using hb'.2)⟩
  rcases memForest_structure base base.length _ p hgood hmem with ⟨b, hgb, fuel', rfl⟩
  exact ⟨b, hgb, buildNode_id .., buildNode_name .., buildNode_parentId ..,
    buildNode_isFolder .., buildNode_trackIds ..⟩

theorem parseRekordboxDatabase_ok_inv (buf : List Nat) (now : Nat)
    (lib : RekordboxDatabase) (h : parseRekordboxDatabase buf now = .ok lib) :
    lib = buildLibrary buf now (readU32 buf 4) (readU32 buf 8) := by
  unfold parseRekordboxDatabase at h
  split at h
  · cases h
  split at h
  · cases h
  dsimp only at h
  split at h
  · cases h
  split at h
  · cases h
  cases h
  rfl

/-- Claim C9: in every returned library, every playlist's `track_ids` list
is the `trackId` projection of its underlying playlist entries sorted by
ascending `position`: there is a reordering `es` of the playlist's entry
bucket that is sorted by `position` with `trackIds = es.map trackId`. -/
theorem playlist_trackIds_sorted (buf : List Nat) (now : Nat)
    (lib : RekordboxDatabase) (p : Playlist)
    (h : parseRekordboxDatabase buf now = .ok lib)
    (hp : MemForest p lib.playlists) :
    ∃ es : List PEntry,
      (es.Pairwise fun a b => a.position ≤ b.position) ∧
      List.Perm es
        ((mapGet (entriesOf buf (readU32 buf 4) (readTables buf (readU32 buf 4) (readU32 buf 8)))
          p.id).getD []) ∧
      p.trackIds = es.map fun e => e.trackId := by
  rw [parseRekordboxDatabase_ok_inv buf now lib h] at hp
  have hpl : (buildLibrary buf now (readU32 buf 4) (readU32 buf 8)).playlists =
      forestOf (baseOf
        (treeOf buf (readU32 buf 4) (readTables buf (readU32 buf 4) (readU32 buf 8)))
        (entriesOf buf (readU32 buf 4) (readTables buf (readU32 buf 4) (readU32 buf 8)))) := rfl
  rw [hpl] at hp
  rcases memForest_forestOf _ p hp with ⟨b, hgb, hid, _, _, _, htids⟩
  rcases List.mem_map.1 hgb.1 with ⟨pair, hpair, hb⟩
  refine ⟨sortByKey (fun e => e.position)
    ((mapGet (entriesOf buf (readU32 buf 4) (readTables buf (readU32 buf 4) (readU32 buf 8)))
      p.id).getD []), sortByKey_pairwise _ _, sortByKey_perm _ _, ?_⟩
  rw [htids, ← hb]
  have hbid : b.id = pair.1 := by rw [← hb]
  rw [hid, hbid]

/-- Witness for `playlist_trackIds_sorted`: the single playlist of `buf3`
(entries arrive as positions 2 then 1) has `trackIds = [11, 10]`, the
entry bucket sorted by position. -/
theorem playlist_trackIds_sorted_witness :
    ∃ es : List PEntry,
      (es.Pairwise fun a b => a.position ≤ b.position) ∧
      List.Perm es
        ((mapGet (entriesOf buf3 (readU32 buf3 4) (readTables buf3 (readU32 buf3 4) (readU32 buf3 8)))
          (Playlist.id ⟨1, "A", none, false, [], [11, 10]⟩)).getD []) ∧
      Playlist.trackIds ⟨1, "A", none, false, [], [11, 10]⟩ = es.map fun e => e.trackId :=
  playlist_trackIds_sorted buf3 0 ⟨[], [⟨1, "A", none, false, [], [11, 10]⟩]⟩
    ⟨1, "A", none, false, [], [11, 10]⟩ rfl (MemForest.here (List.mem_singleton.2 rfl))

mutual

/-- Number of occurrences of the id `x` in a playlist tree. -/
def countIdTree (x : Nat) : Playlist → Nat
  | ⟨i, _, _, _, cs, _⟩ => (if i = x then 1 else 0) + countIdList x cs

/-- Number of occurrences of the id `x` in a playlist forest. -/
def countIdList (x : Nat) : List Playlist → Nat
  | [] => 0
  | p :: ps => countIdTree x p + countIdList x ps

end

theorem countIdTree_def (x : Nat) (p : Playlist) :
    countIdTree x p = (if p.id = x then 1 else 0) + countIdList x p.children := by
  obtain ⟨i, n, pa, f, cs, ts⟩ := p
  simp [countIdTree]

theorem countIdList_cons (x : Nat) (p : Playlist) (ps : List Playlist) :
    countIdList x (p :: ps) = countIdTree x p + countIdList x ps := rfl

theorem countIdList_perm (x : Nat) (ps₁ ps₂ : List Playlist) (h : List.Perm ps₁ ps₂) :
    countIdList x ps₁ = countIdList x ps₂ := by
  induction h with
  | nil => rfl
  | cons p _ ih => rw [countIdList_cons, countIdList_cons, ih]
  | swap p q l => rw [countIdList_cons, countIdList_cons, countIdList_cons, countIdList_cons]; omega
  | trans _ _ ih₁ ih₂ => exact ih₁.trans ih₂

theorem memForest_cons (p q : Playlist) (ps : List Playlist)
    (h : MemForest p ps) : MemForest p (q :: ps) := by
  cases h with
  | here hp => exact MemForest.here (List.mem_cons_of_mem q hp)
  | child hq hc => exact MemForest.child (List.mem_cons_of_mem q hq) hc

theorem pos_countIdList_memForest :
    ∀ (n : Nat) (ps : List Playlist), sizeOf ps ≤ n → ∀ x,
      0 < countIdList x ps → ∃ p, MemForest p ps ∧ p.id = x := by
  intro n
  induction n using Nat.strong_induction_on with
  | _ n ih =>
    intro ps hsz x hpos
    match ps with
    | [] => simp [countIdList] at hpos
    | (p :: ps) =>
      obtain ⟨i, nm, pa, f, cs, ts⟩ := p
      have hlt_cs : sizeOf cs < n := by
        have h := hsz
        simp at h
        omega
      have hlt_ps : sizeOf ps < n := by
        have h := hsz
        simp at h
        omega
      have hcount : 0 < countIdTree x ⟨i, nm, pa, f, cs, ts⟩ + countIdList x ps := by
        simpa [countIdList] using hpos
      by_cases hp : 0 < countIdTree x ⟨i, nm, pa, f, cs, ts⟩
      · by_cases hid : i = x
        · exact ⟨⟨i, nm, pa, f, cs, ts⟩, MemForest.here (List.mem_cons_self _ ps), hid⟩
        · have hc : 0 < countIdList x cs := by
            rw [show countIdTree x ⟨i, nm, pa, f, cs, ts⟩ =
              (if i = x then 1 else 0) + countIdList x cs from by simp [countIdTree]] at hp
            rw [if_neg hid] at hp
            omega
          rcases ih (sizeOf cs) hlt_cs cs le_rfl x hc with ⟨p', hmem', hid'⟩
          exact ⟨p', MemForest.child (q := ⟨i, nm, pa, f, cs, ts⟩)
            (List.mem_cons_self _ ps) hmem', hid'⟩
      · have hps : 0 < countIdList x ps := by omega
        rcases ih (sizeOf ps) hlt_ps ps le_rfl x hps with ⟨p', hmem', hid'⟩
        exact ⟨p', memForest_cons p' _ ps hmem', hid'⟩

theorem treeOf_keys_nodup (buf : List Nat) (lenPage : Nat) (tables : List TableInfo) :
    ((treeOf buf lenPage tables).map Prod.fst).Nodup := by
  have hrows : ∀ (rows : List (Nat × Nat)) (m : List (Nat × TreeNodeData)),
      (m.map Prod.fst).Nodup →
      ((rows.foldl (fun m r => parsePlaylistTreeRow buf r.1 m) m).map Prod.fst).Nodup := by
    intro rows
    induction rows with
    | nil => intro m h; exact h
    | cons r rows ih =>
      intro m h
      rw [List.foldl_cons]
      apply ih
      unfold parsePlaylistTreeRow
      cases decodeTreeRow buf r.1 with
      | none => exact h
      | some q => exact nodup_keys_mapSet m q.1 q.2 h
  have htables : ∀ (ts : List TableInfo) (m : List (Nat × TreeNodeData)),
      (m.map Prod.fst).Nodup →
      ((ts.foldl
        (fun m tb =>
          if tb.type = 7 then
            (parseTablePages buf lenPage tb).rows.foldl
              (fun m r => parsePlaylistTreeRow buf r.1 m) m
          else m) m).map Prod.fst).Nodup := by
    intro ts
    induction ts with
    | nil => intro m h; exact h
    | cons tb ts ih =>
      intro m h
      rw [List.foldl_cons]
      apply ih
      by_cases ht : tb.type = 7
      · rw [if_pos ht]
        exact hrows _ m h
      · rw [if_neg ht]
        exact h
  exact htables tables [] (by simp)

/-- Counterexample to claim C1: in `buf1` the single decoded playlist-tree
node (id 1) has `parent_id = 5`, no decoded node has id 5, yet the decoded
library's playlist forest is empty — the orphan does not appear as a
root. -/
theorem orphan_root_cex :
    ¬ (∀ (buf : List Nat) (now : Nat) (lib : RekordboxDatabase),
        parseRekordboxDatabase buf now = .ok lib →
        ∀ i nd,
          (i, nd) ∈ treeOf buf (readU32 buf 4) (readTables buf (readU32 buf 4) (readU32 buf 8)) →
          nd.parentId ≠ 0 →
          (∀ q ∈ treeOf buf (readU32 buf 4) (readTables buf (readU32 buf 4) (readU32 buf 8)),
            q.1 ≠ nd.parentId) →
          ∃ p ∈ lib.playlists, p.id = i) := by
  intro hclaim
  rcases hclaim buf1 0 ⟨[], []⟩ rfl 1 ⟨"A", 5, false, 0⟩ (by decide) (by decide) (by decide)
    with ⟨p, hp, _⟩
  cases hp

/-- Claim C1, amended: a decoded playlist-tree node whose `parent_id` is
nonzero but matches no decoded node's id does not appear in the returned
playlist forest at all — it is neither a root (the root filter keeps only
`parent_id = 0` nodes) nor anyone's child (its parent id resolves to no
node). -/
theorem orphan_not_in_forest (buf : List Nat) (now : Nat) (lib : RekordboxDatabase)
    (i : Nat) (nd : TreeNodeData)
    (h : parseRekordboxDatabase buf now = .ok lib)
    (hmem : (i, nd) ∈ treeOf buf (readU32 buf 4) (readTables buf (readU32 buf 4) (readU32 buf 8)))
    (hnz : nd.parentId ≠ 0)
    (hnp : ∀ q ∈ treeOf buf (readU32 buf 4) (readTables buf (readU32 buf 4) (readU32 buf 8)),
      q.1 ≠ nd.parentId) :
    countIdList i lib.playlists = 0 := by
  set tree := treeOf buf (readU32 buf 4) (readTables buf (readU32 buf 4) (readU32 buf 8))
    with htree
  by_contra hpos
  rcases pos_countIdList_memForest (sizeOf lib.playlists) lib.playlists le_rfl i
    (by omega) with ⟨p, hpmem, hpid⟩
  rw [parseRekordboxDatabase_ok_inv buf now lib h] at hpmem
  have hpl : (buildLibrary buf now (readU32 buf 4) (readU32 buf 8)).playlists =
      forestOf (baseOf tree
        (entriesOf buf (readU32 buf 4) (readTables buf (readU32 buf 4) (readU32 buf 8)))) := rfl
  rw [hpl] at hpmem
  rcases memForest_forestOf _ p hpmem with ⟨b, hgb, hid, _, hpar, _, _⟩
  rcases List.mem_map.1 hgb.1 with ⟨pair, hpair, hb⟩
  -- the base element with id `i` is the one built from `(i, nd)`
  have hkeys := treeOf_keys_nodup buf (readU32 buf 4) (readTables buf (readU32 buf 4) (readU32 buf 8))
  rw [← htree] at hkeys
  have hpair1 : pair.1 = i := by
    have : b.id = pair.1 := by rw [← hb]
    omega
  have hpair2 : pair.2 = nd := by
    have h1 : mapGet tree pair.1 = some pair.2 :=
      mapGet_eq_some_of_mem tree pair.1 pair.2 hkeys (by
        rcases pair with ⟨pk, pv⟩
        exact hpair)
    have h2 : mapGet tree i = some nd := mapGet_eq_some_of_mem tree i nd hkeys hmem
    rw [hpair1] at h1
    rw [h1] at h2
    exact Option.some_inj.1 h2
  have hbpar : b.parentId = some nd.parentId := by
    rw [← hb, hpair2]
    simp [baseOf, hnz]
  rcases hgb.2 with hroot | ⟨b', hb', hbp⟩
  · rw [hbpar] at hroot
    cases hroot
  · rw [hbpar] at hbp
    rcases List.mem_map.1 hb' with ⟨pair', hpair', hb'eq⟩
    have : pair'.1 = nd.parentId := by
      have hpid' : b'.id = pair'.1 := by rw [← hb'eq]
      have := Option.some_inj.1 hbp
      omega
    exact hnp pair' hpair' this

/-- Witness for `orphan_not_in_forest`: the orphan node of `buf1` occurs
zero times in the decoded forest. -/
theorem orphan_not_in_forest_witness :
    countIdList 1 (RekordboxDatabase.playlists ⟨[], []⟩) = 0 :=
  orphan_not_in_forest buf1 0 ⟨[], []⟩ 1 ⟨"A", 5, false, 0⟩ rfl (by decide) (by decide)
    (by decide)

/-- Forget the wall-clock observation inside a `dateAdded` value. -/
def eraseClock : DateAdded → DateAdded
  | .fromString s => .fromString s
  | .clockNow _ => .clockNow 0

def eraseTrackClock (t : Track) : Track :=
  { t with dateAdded := eraseClock t.dateAdded }

def eraseLibClock (lib : RekordboxDatabase) : RekordboxDatabase :=
  { lib with tracks := lib.tracks.map eraseTrackClock }

theorem eraseTrackClock_id (t : Track) : (eraseTrackClock t).id = t.id := rfl

/-- The track record `parseTrackRow` emits when every sanity gate passes
(proof-level abbreviation of the record literal in `parseTrackRow`). -/
def trackOf (buf : List Nat) (now : Nat) (m : Lookups) (rowBase : Nat) : Track :=
  let tempo := readU32 buf (rowBase + 0x38)
  let genreId := readU32 buf (rowBase + 0x3C)
  let albumId := readU32 buf (rowBase + 0x40)
  let artistId := readU32 buf (rowBase + 0x44)
  let id := readU32 buf (rowBase + 0x48)
  let duration := readU16 buf (rowBase + 0x54)
  let rating := readU8 buf (rowBase + 0x59)
  let bitrate := readU32 buf (rowBase + 0x30)
  let keyId := readU32 buf (rowBase + 0x20)
  let slot : Nat → Nat := fun i =>
    let o := readU16 buf (rowBase + 0x5E + i * 2)
    if o > 10000 then 0 else o
  let titleOffset := slot 17
  let title := if titleOffset > 0 then readDeviceSqlString buf (rowBase + titleOffset) else ""
  let filePathOffset := slot 20
  let filePath := if filePathOffset > 0 then readDeviceSqlString buf (rowBase + filePathOffset) else ""
  let dateAddedOffset := slot 10
  let dateAddedStr := if dateAddedOffset > 0 then readDeviceSqlString buf (rowBase + dateAddedOffset) else ""
  { id := id
    title := if title ≠ "" then title else "Unknown Title"
    artist := (mapGet m.artists artistId).getD "Unknown Artist"
    album := (mapGet m.albums albumId).getD "Unknown Album"
    genre := (mapGet m.genres genreId).getD ""
    duration := duration
    bpm := (tempo : ℚ) / 100
    key := (mapGet m.keys keyId).getD ""
    rating := rating
    bitrate := bitrate
    filePath := filePath
    dateAdded := if dateAddedStr ≠ "" then .fromString dateAddedStr else .clockNow now }

theorem trackRow_none_shortRow (buf : List Nat) (now : Nat) (m : Lookups) (rowBase : Nat)
    (h : rowBase + 0x86 > buf.length) : parseTrackRow buf now m rowBase = none := by
  simp only [parseTrackRow]
  rw [if_pos h]

theorem trackRow_none_id0 (buf : List Nat) (now : Nat) (m : Lookups) (rowBase : Nat)
    (h : readU32 buf (rowBase + 0x48) = 0) : parseTrackRow buf now m rowBase = none := by
  simp only [parseTrackRow]
  by_cases hb0 : rowBase + 0x86 > buf.length
  · rw [if_pos hb0]
  rw [if_neg hb0]
  rw [if_pos h]

theorem trackRow_none_tempo (buf : List Nat) (now : Nat) (m : Lookups) (rowBase : Nat)
    (h : readU32 buf (rowBase + 0x38) > 50000) : parseTrackRow buf now m rowBase = none := by
  simp only [parseTrackRow]
  by_cases hb0 : rowBase + 0x86 > buf.length
  · rw [if_pos hb0]
  rw [if_neg hb0]
  by_cases hb1 : readU32 buf (rowBase + 0x48) = 0
  · rw [if_pos hb1]
  rw [if_neg hb1]
  rw [if_pos h]

theorem trackRow_none_duration (buf : List Nat) (now : Nat) (m : Lookups) (rowBase : Nat)
    (h : readU16 buf (rowBase + 0x54) > 36000) : parseTrackRow buf now m rowBase = none := by
  simp only [parseTrackRow]
  by_cases hb0 : rowBase + 0x86 > buf.length
  · rw [if_pos hb0]
  rw [if_neg hb0]
  by_cases hb1 : readU32 buf (rowBase + 0x48) = 0
  · rw [if_pos hb1]
  rw [if_neg hb1]
  by_cases hb2 : readU32 buf (rowBase + 0x38) > 50000
  · rw [if_pos hb2]
  rw [if_neg hb2]
  rw [if_pos h]

theorem trackRow_none_rating (buf : List Nat) (now : Nat) (m : Lookups) (rowBase : Nat)
    (h : readU8 buf (rowBase + 0x59) > 255) : parseTrackRow buf now m rowBase = none := by
  simp only [parseTrackRow]
  by_cases hb0 : rowBase + 0x86 > buf.length
  · rw [if_pos hb0]
  rw [if_neg hb0]
  by_cases hb1 : readU32 buf (rowBase + 0x48) = 0
  · rw [if_pos hb1]
  rw [if_neg hb1]
  by_cases hb2 : readU32 buf (rowBase + 0x38) > 50000
  · rw [if_pos hb2]
  rw [if_neg hb2]
  by_cases hb3 : readU16 buf (rowBase + 0x54) > 36000
  · rw [if_pos hb3]
  rw [if_neg hb3]
  rw [if_pos h]

theorem trackRow_none_bitrate (buf : List Nat) (now : Nat) (m : Lookups) (rowBase : Nat)
    (h : readU32 buf (rowBase + 0x30) > 10000) : parseTrackRow buf now m rowBase = none := by
  simp only [parseTrackRow]
  by_cases hb0 : rowBase + 0x86 > buf.length
  · rw [if_pos hb0]
  rw [if_neg hb0]
  by_cases hb1 : readU32 buf (rowBase + 0x48) = 0
  · rw [if_pos hb1]
  rw [if_neg hb1]
  by_cases hb2 : readU32 buf (rowBase + 0x38) > 50000
  · rw [if_pos hb2]
  rw [if_neg hb2]
  by_cases hb3 : readU16 buf (rowBase + 0x54) > 36000
  · rw [if_pos hb3]
  rw [if_neg hb3]
  by_cases hb4 : readU8 buf (rowBase + 0x59) > 255
  · rw [if_pos hb4]
  rw [if_neg hb4]
  rw [if_pos h]

theorem trackRow_none_shortSlots (buf : List Nat) (now : Nat) (m : Lookups) (rowBase : Nat)
    (h : rowBase + 0x88 > buf.length) : parseTrackRow buf now m rowBase = none := by
  simp only [parseTrackRow]
  by_cases hb0 : rowBase + 0x86 > buf.length
  · rw [if_pos hb0]
  rw [if_neg hb0]
  by_cases hb1 : readU32 buf (rowBase + 0x48) = 0
  · rw [if_pos hb1]
  rw [if_neg hb1]
  by_cases hb2 : readU32 buf (rowBase + 0x38) > 50000
  · rw [if_pos hb2]
  rw [if_neg hb2]
  by_cases hb3 : readU16 buf (rowBase + 0x54) > 36000
  · rw [if_pos hb3]
  rw [if_neg hb3]
  by_cases hb4 : readU8 buf (rowBase + 0x59) > 255
  · rw [if_pos hb4]
  rw [if_neg hb4]
  by_cases hb5 : readU32 buf (rowBase + 0x30) > 10000
  · rw [if_pos hb5]
  rw [if_neg hb5]
  rw [if_pos h]

theorem trackRow_some_of_guards (buf : List Nat) (now : Nat) (m : Lookups) (rowBase : Nat)
    (h1 : ¬ rowBase + 0x86 > buf.length)
    (h2 : ¬ readU32 buf (rowBase + 0x48) = 0)
    (h3 : ¬ readU32 buf (rowBase + 0x38) > 50000)
    (h4 : ¬ readU16 buf (rowBase + 0x54) > 36000)
    (h5 : ¬ readU8 buf (rowBase + 0x59) > 255)
    (h6 : ¬ readU32 buf (rowBase + 0x30) > 10000)
    (h7 : ¬ rowBase + 0x88 > buf.length) :
    parseTrackRow buf now m rowBase = some (trackOf buf now m rowBase) := by
  simp only [parseTrackRow]
  rw [if_neg h1, if_neg h2, if_neg h3, if_neg h4, if_neg h5, if_neg h6, if_neg h7]
  rfl

theorem erase_trackOf (buf : List Nat) (t₁ t₂ : Nat) (m : Lookups) (rowBase : Nat) :
    eraseTrackClock (trackOf buf t₁ m rowBase) = eraseTrackClock (trackOf buf t₂ m rowBase) := by
  unfold trackOf eraseTrackClock
  congr 1
  dsimp only
  repeat' split
  all_goals rfl

theorem parseTrackRow_erase (buf : List Nat) (t₁ t₂ : Nat) (m : Lookups) (rb : Nat) :
    (parseTrackRow buf t₁ m rb).map eraseTrackClock =
      (parseTrackRow buf t₂ m rb).map eraseTrackClock := by
  by_cases h1 : rb + 0x86 > buf.length
  · rw [trackRow_none_shortRow buf t₁ m rb h1, trackRow_none_shortRow buf t₂ m rb h1]
  by_cases h2 : readU32 buf (rb + 0x48) = 0
  · rw [trackRow_none_id0 buf t₁ m rb h2, trackRow_none_id0 buf t₂ m rb h2]
  by_cases h3 : readU32 buf (rb + 0x38) > 50000
  · rw [trackRow_none_tempo buf t₁ m rb h3, trackRow_none_tempo buf t₂ m rb h3]
  by_cases h4 : readU16 buf (rb + 0x54) > 36000
  · rw [trackRow_none_duration buf t₁ m rb h4, trackRow_none_duration buf t₂ m rb h4]
  by_cases h5 : readU8 buf (rb + 0x59) > 255
  · rw [trackRow_none_rating buf t₁ m rb h5, trackRow_none_rating buf t₂ m rb h5]
  by_cases h6 : readU32 buf (rb + 0x30) > 10000
  · rw [trackRow_none_bitrate buf t₁ m rb h6, trackRow_none_bitrate buf t₂ m rb h6]
  by_cases h7 : rb + 0x88 > buf.length
  · rw [trackRow_none_shortSlots buf t₁ m rb h7, trackRow_none_shortSlots buf t₂ m rb h7]
  rw [trackRow_some_of_guards buf t₁ m rb h1 h2 h3 h4 h5 h6 h7,
    trackRow_some_of_guards buf t₂ m rb h1 h2 h3 h4 h5 h6 h7]
  rw [Option.map_some', Option.map_some', erase_trackOf buf t₁ t₂ m rb]

/-- Clock erasure lifted to the `trackData` association map. -/
def eraseAssoc (tm : List (Nat × Track)) : List (Nat × Track) :=
  tm.map fun p => (p.1, eraseTrackClock p.2)

theorem eraseAssoc_mapSet (tm : List (Nat × Track)) (k : Nat) (v : Track) :
    eraseAssoc (mapSet tm k v) = mapSet (eraseAssoc tm) k (eraseTrackClock v) := by
  unfold mapSet
  have hany : ((eraseAssoc tm).any fun p => p.1 = k) = (tm.any fun p => p.1 = k) := by
    rw [eraseAssoc, List.any_map]
    rfl
  rw [hany]
  by_cases h : (tm.any fun p => p.1 = k) = true
  · rw [if_pos h, if_pos h]
    simp only [eraseAssoc, List.map_map]
    apply List.map_congr_left
    intro p _
    by_cases hk : p.1 = k <;> simp [hk, Function.comp]
  · rw [if_neg h, if_neg h]
    simp [eraseAssoc]

theorem trackFold_erase (buf : List Nat) (lookups : Lookups) (t₁ t₂ : Nat) :
    ∀ (rows : List (Nat × Nat)) (tm₁ tm₂ : List (Nat × Track)),
      eraseAssoc tm₁ = eraseAssoc tm₂ →
      eraseAssoc (rows.foldl
        (fun m r =>
          match parseTrackRow buf t₁ lookups r.1 with
          | some tr => mapSet m tr.id tr
          | none => m) tm₁) =
      eraseAssoc (rows.foldl
        (fun m r =>
          match parseTrackRow buf t₂ lookups r.1 with
          | some tr => mapSet m tr.id tr
          | none => m) tm₂) := by
  intro rows
  induction rows with
  | nil => exact fun _ _ h => h
  | cons r rows ih =>
    intro tm₁ tm₂ h
    rw [List.foldl_cons, List.foldl_cons]
    apply ih
    have herase := parseTrackRow_erase buf t₁ t₂ lookups r.1
    cases h₁ : parseTrackRow buf t₁ lookups r.1 with
    | none =>
      cases h₂ : parseTrackRow buf t₂ lookups r.1 with
      | none => exact h
      | some tr₂ =>
        rw [h₁, h₂] at herase
        simp at herase
    | some tr₁ =>
      cases h₂ : parseTrackRow buf t₂ lookups r.1 with
      | none =>
        rw [h₁, h₂] at herase
        simp at herase
      | some tr₂ =>
        rw [h₁, h₂] at herase
        simp only [Option.map_some'] at herase
        have herase' : eraseTrackClock tr₁ = eraseTrackClock tr₂ := Option.some_inj.1 herase
        have hid : tr₁.id = tr₂.id := by
          have hc := congrArg Track.id herase'
          simpa [eraseTrackClock_id] using hc
        rw [eraseAssoc_mapSet, eraseAssoc_mapSet, h, hid, herase']

theorem trackMapOf_erase (buf : List Nat) (t₁ t₂ lenPage : Nat)
    (tables : List TableInfo) (lookups : Lookups) :
    eraseAssoc (trackMapOf buf t₁ lenPage tables lookups) =
      eraseAssoc (trackMapOf buf t₂ lenPage tables lookups) := by
  unfold trackMapOf
  have main : ∀ (ts : List TableInfo) (tm₁ tm₂ : List (Nat × Track)),
      eraseAssoc tm₁ = eraseAssoc tm₂ →
      eraseAssoc (ts.foldl
        (fun m tb =>
          if tb.type = 0 then
            (parseTablePages buf lenPage tb).rows.foldl
              (fun m r =>
                match parseTrackRow buf t₁ lookups r.1 with
                | some tr => mapSet m tr.id tr
                | none => m) m
          else m) tm₁) =
      eraseAssoc (ts.foldl
        (fun m tb =>
          if tb.type = 0 then
            (parseTablePages buf lenPage tb).rows.foldl
              (fun m r =>
                match parseTrackRow buf t₂ lookups r.1 with
                | some tr => mapSet m tr.id tr
                | none => m) m
          else m) tm₂) := by
    intro ts
    induction ts with
    | nil => exact fun _ _ h => h
    | cons tb ts ih =>
      intro tm₁ tm₂ h
      rw [List.foldl_cons, List.foldl_cons]
      apply ih
      by_cases ht : tb.type = 0
      · rw [if_pos ht, if_pos ht]
        exact trackFold_erase buf lookups t₁ t₂ _ tm₁ tm₂ h
      · rw [if_neg ht, if_neg ht]
        exact h
  exact main tables [] [] rfl

theorem buildLibrary_erase (buf : List Nat) (t₁ t₂ lenPage numTables : Nat) :
    eraseLibClock (buildLibrary buf t₁ lenPage numTables) =
      eraseLibClock (buildLibrary buf t₂ lenPage numTables) := by
  unfold buildLibrary eraseLibClock
  dsimp only
  congr 1
  have hswap : ∀ tm : List (Nat × Track),
      (tm.map fun p => p.2).map eraseTrackClock = (eraseAssoc tm).map fun p => p.2 := by
    intro tm
    simp [eraseAssoc, List.map_map, Function.comp]
  rw [hswap, hswap, trackMapOf_erase buf t₁ t₂ lenPage _ _]

/-- Claim C2, amended: decoding the same bytes twice yields libraries that
agree everywhere except on the `dateAdded` of tracks whose date-added
string is empty — there the code stores `new Date()` (the wall clock), so
the two calls differ exactly by their clock observations.  Formally,
erasing the clock observation (`eraseLibClock`) makes the two decodes
equal for any pair of clock values. -/
theorem parseRekordboxDatabase_deterministic_up_to_clock (buf : List Nat) (t₁ t₂ : Nat) :
    (parseRekordboxDatabase buf t₁).map eraseLibClock =
      (parseRekordboxDatabase buf t₂).map eraseLibClock := by
  unfold parseRekordboxDatabase
  split
  · rfl
  split
  · rfl
  dsimp only
  split
  · rfl
  split
  · rfl
  simp only [Except.map]
  rw [buildLibrary_erase]

/-- Counterexample to claim C2: decoding `buf2` (one track, no date-added
string) at clock values 0 and 1 yields structurally different libraries —
the `dateAdded` fields differ. -/
theorem parseRekordboxDatabase_deterministic_cex :
    ¬ (∀ (buf : List Nat) (t₁ t₂ : Nat),
        parseRekordboxDatabase buf t₁ = parseRekordboxDatabase buf t₂) := by
  intro hclaim
  have h := congrArg (Except.map fun l => l.tracks.map fun tr => tr.dateAdded)
    (hclaim buf2 0 1)
  rw [show (parseRekordboxDatabase buf2 0).map (fun l => l.tracks.map fun tr => tr.dateAdded) =
      .ok [.clockNow 0] from rfl] at h
  rw [show (parseRekordboxDatabase buf2 1).map (fun l => l.tracks.map fun tr => tr.dateAdded) =
      .ok [.clockNow 1] from rfl] at h
  simp at h

/-- `Chain base c b d`: following parent links upward from `c` for `d`
steps reaches `b` (all intermediate nodes are in `base`). -/
inductive Chain (base : List BasePlaylist) : BasePlaylist → BasePlaylist → Nat → Prop where
  | zero (b : BasePlaylist) : Chain base b b 0
  | step {c b' b : BasePlaylist} {d : Nat} : c ∈ base → b' ∈ base →
      c.parentId = some b'.id → Chain base b' b d → Chain base c b (d + 1)

theorem chain_zero_inv {base : List BasePlaylist} {c b : BasePlaylist}
    (h : Chain base c b 0) : c = b := by
  cases h
  rfl

theorem chain_succ_inv {base : List BasePlaylist} {c b : BasePlaylist} {d : Nat}
    (h : Chain base c b (d + 1)) :
    ∃ b', c ∈ base ∧ b' ∈ base ∧ c.parentId = some b'.id ∧ Chain base b' b d := by
  cases h with
  | step hc hb' hpar htail => exact ⟨_, hc, hb', hpar, htail⟩

theorem base_id_inj {base : List BasePlaylist}
    (hnd : (base.map fun b => b.id).Nodup) {a a' : BasePlaylist}
    (ha : a ∈ base) (ha' : a' ∈ base) (hid : a.id = a'.id) : a = a' :=
  List.inj_on_of_nodup_map hnd ha ha' hid

theorem chain_snoc {base : List BasePlaylist} {c y b : BasePlaylist} {d : Nat}
    (h : Chain base c y d) (hy : y ∈ base) (hpar : y.parentId = some b.id)
    (hb : b ∈ base) : Chain base c b (d + 1) := by
  induction h with
  | zero c => exact Chain.step hy hb hpar (Chain.zero b)
  | step hc hb' hpar' _ ih => exact Chain.step hc hb' hpar' (ih hy hpar)

theorem chain_fun {base : List BasePlaylist}
    (hnd : (base.map fun b => b.id).Nodup) :
    ∀ (d : Nat) (c b₁ b₂ : BasePlaylist),
      Chain base c b₁ d → Chain base c b₂ d → b₁ = b₂ := by
  intro d
  induction d with
  | zero =>
    intro c b₁ b₂ h₁ h₂
    rw [← chain_zero_inv h₁, ← chain_zero_inv h₂]
  | succ d ih =>
    intro c b₁ b₂ h₁ h₂
    rcases chain_succ_inv h₁ with ⟨y₁, _, hy₁, hp₁, ht₁⟩
    rcases chain_succ_inv h₂ with ⟨y₂, _, hy₂, hp₂, ht₂⟩
    have hyy : y₁ = y₂ := by
      apply base_id_inj hnd hy₁ hy₂
      have := hp₁ ▸ hp₂
      exact Option.some_inj.1 this
    exact ih y₁ b₁ b₂ ht₁ (hyy ▸ ht₂)

theorem chain_split {base : List BasePlaylist} :
    ∀ (d₁ d₂ : Nat) (c b : BasePlaylist), Chain base c b (d₁ + d₂) →
      ∃ y, Chain base c y d₁ ∧ Chain base y b d₂ := by
  intro d₁
  induction d₁ with
  | zero => exact fun d₂ c b h => ⟨c, Chain.zero c, by simpa using h⟩
  | succ d₁ ih =>
    intro d₂ c b h
    have h' : Chain base c b ((d₁ + d₂) + 1) := by
      have : d₁ + 1 + d₂ = (d₁ + d₂) + 1 := by omega
      rwa [this] at h
    rcases chain_succ_inv h' with ⟨b', hc, hb', hpar, htail⟩
    rcases ih d₂ b' b htail with ⟨y, hy₁, hy₂⟩
    exact ⟨y, Chain.step hc hb' hpar hy₁, hy₂⟩

theorem root_no_cycle {base : List BasePlaylist} {r : BasePlaylist}
    (hr : r.parentId = none) (k : Nat) : ¬ Chain base r r (k + 1) := by
  intro h
  rcases chain_succ_inv h with ⟨b', _, _, hpar, _⟩
  rw [hr] at hpar
  cases hpar

theorem cycle_rotate {base : List BasePlaylist}
    (hnd : (base.map fun b => b.id).Nodup) {c b : BasePlaylist} {k : Nat}
    (h : Chain base c c (k + 1)) (hpar : c.parentId = some b.id) (hb : b ∈ base) :
    Chain base b b (k + 1) := by
  rcases chain_succ_inv h with ⟨b'', hc, hb'', hpar'', htail⟩
  have hbb : b'' = b := by
    apply base_id_inj hnd hb'' hb
    have hsome : some b''.id = some b.id := by rw [← hpar'', ← hpar]
    exact Option.some_inj.1 hsome
  rw [hbb] at htail
  exact chain_snoc htail hc hpar hb

theorem pos_countIdList_map {α : Type} (x : Nat) (g : α → Playlist) :
    ∀ l : List α, 0 < countIdList x (l.map g) → ∃ a ∈ l, 0 < countIdTree x (g a) := by
  intro l
  induction l with
  | nil => intro h; simp [countIdList] at h
  | cons a l ih =>
    intro h
    rw [List.map_cons, show countIdList x (g a :: l.map g) =
      countIdTree x (g a) + countIdList x (l.map g) from rfl] at h
    by_cases ha : 0 < countIdTree x (g a)
    · exact ⟨a, List.mem_cons_self a l, ha⟩
    · rcases ih (by omega) with ⟨a', ha', hpos⟩
      exact ⟨a', List.mem_cons_of_mem a ha', hpos⟩

theorem countIdList_map_eq_zero {α : Type} (x : Nat) (g : α → Playlist)
    (l : List α) (h : ∀ a ∈ l, countIdTree x (g a) = 0) :
    countIdList x (l.map g) = 0 := by
  induction l with
  | nil => simp [countIdList]
  | cons a l ih =>
    rw [List.map_cons, show countIdList x (g a :: l.map g) =
      countIdTree x (g a) + countIdList x (l.map g) from rfl]
    rw [h a (List.mem_cons_self a l), ih fun a' ha' => h a' (List.mem_cons_of_mem a ha')]

theorem countIdList_map_le_one {α : Type} (x : Nat) (g : α → Playlist) :
    ∀ l : List α, l.Nodup → (∀ a ∈ l, countIdTree x (g a) ≤ 1) →
      (∀ a₁ ∈ l, ∀ a₂ ∈ l, a₁ ≠ a₂ → countIdTree x (g a₁) = 0 ∨ countIdTree x (g a₂) = 0) →
      countIdList x (l.map g) ≤ 1 := by
  intro l
  induction l with
  | nil => intro _ _ _; simp [countIdList]
  | cons a l ih =>
    intro hnd hle hexcl
    rw [List.map_cons, show countIdList x (g a :: l.map g) =
      countIdTree x (g a) + countIdList x (l.map g) from rfl]
    rw [List.nodup_cons] at hnd
    by_cases ha : countIdTree x (g a) = 0
    · rw [ha]
      simpa using ih hnd.2 (fun a' ha' => hle a' (List.mem_cons_of_mem a ha'))
        (fun a₁ h₁ a₂ h₂ => hexcl a₁ (List.mem_cons_of_mem a h₁) a₂ (List.mem_cons_of_mem a h₂))
    · have htail : countIdList x (l.map g) = 0 := by
        apply countIdList_map_eq_zero
        intro a' ha'
        have hne : a ≠ a' := fun he => hnd.1 (he ▸ ha')
        rcases hexcl a (List.mem_cons_self a l) a' (List.mem_cons_of_mem a ha') hne with
          h0 | h0
        · exact absurd h0 ha
        · exact h0
      rw [htail]
      have := hle a (List.mem_cons_self a l)
      omega

theorem tree_occ (base : List BasePlaylist) (x : Nat) :
    ∀ (fuel : Nat) (b : BasePlaylist), b ∈ base →
      0 < countIdTree x (buildNode base fuel b) →
      ∃ c d, c ∈ base ∧ c.id = x ∧ d ≤ fuel ∧ Chain base c b d := by
  intro fuel
  induction fuel with
  | zero =>
    intro b hb hpos
    rw [countIdTree_def, buildNode_id, buildNode_children_zero] at hpos
    simp only [countIdList] at hpos
    have hid : b.id = x := by
      by_cases h : b.id = x
      · exact h
      · rw [if_neg h] at hpos
        omega
    exact ⟨b, 0, hb, hid, Nat.le_refl 0, Chain.zero b⟩
  | succ fuel ih =>
    intro b hb hpos
    rw [countIdTree_def, buildNode_id, buildNode_children_succ] at hpos
    by_cases hid : b.id = x
    · exact ⟨b, 0, hb, hid, Nat.zero_le _, Chain.zero b⟩
    · rw [if_neg hid] at hpos
      have hlist : 0 < countIdList x
          ((base.filter fun c => c.parentId = some b.id).map (buildNode base fuel)) := by
        omega
      rcases pos_countIdList_map x (buildNode base fuel) _ hlist with ⟨c₀, hc₀, hc₀pos⟩
      rw [List.mem_filter] at hc₀
      have hc₀par : c₀.parentId = some b.id := by simpa using hc₀.2
      rcases ih c₀ hc₀.1 hc₀pos with ⟨c, d, hc, hcx, hd, hchain⟩
      exact ⟨c, d + 1, hc, hcx, by omega, chain_snoc hchain hc₀.1 hc₀par hb⟩

theorem tree_count_le_one (base : List BasePlaylist)
    (hnd : (base.map fun b => b.id).Nodup) (x : Nat) :
    ∀ (fuel : Nat) (b : BasePlaylist), b ∈ base →
      (∀ k, ¬ Chain base b b (k + 1)) →
      countIdTree x (buildNode base fuel b) ≤ 1 := by
  have hbnd : base.Nodup := List.Nodup.of_map _ hnd
  intro fuel
  induction fuel with
  | zero =>
    intro b _ _
    rw [countIdTree_def, buildNode_id, buildNode_children_zero]
    simp only [countIdList]
    split <;> omega
  | succ fuel ih =>
    intro b hb hnc
    rw [countIdTree_def, buildNode_id, buildNode_children_succ]
    have hexcl : ∀ c₁ ∈ base.filter (fun c => c.parentId = some b.id),
        ∀ c₂ ∈ base.filter (fun c => c.parentId = some b.id), c₁ ≠ c₂ →
        countIdTree x (buildNode base fuel c₁) = 0 ∨
          countIdTree x (buildNode base fuel c₂) = 0 := by
      intro c₁ hc₁ c₂ hc₂ hne
      by_contra hcon
      push_neg at hcon
      rw [List.mem_filter] at hc₁ hc₂
      have hp₁ : c₁.parentId = some b.id := by simpa using hc₁.2
      have hp₂ : c₂.parentId = some b.id := by simpa using hc₂.2
      rcases tree_occ base x fuel c₁ hc₁.1 (by omega) with ⟨e₁, d₁, he₁, hex₁, _, hch₁⟩
      rcases tree_occ base x fuel c₂ hc₂.1 (by omega) with ⟨e₂, d₂, he₂, hex₂, _, hch₂⟩
      have hee : e₁ = e₂ := base_id_inj hnd he₁ he₂ (by rw [hex₁, hex₂])
      rw [← hee] at hch₂
      have hcb₁ : Chain base e₁ b (d₁ + 1) := chain_snoc hch₁ hc₁.1 hp₁ hb
      have hcb₂ : Chain base e₁ b (d₂ + 1) := chain_snoc hch₂ hc₂.1 hp₂ hb
      rcases Nat.lt_trichotomy d₁ d₂ with hlt | heq | hlt
      · have hsum : d₂ + 1 = (d₁ + 1) + (d₂ - d₁) := by omega
        rw [hsum] at hcb₂
        rcases chain_split (d₁ + 1) (d₂ - d₁) e₁ b hcb₂ with ⟨y, hy₁, hy₂⟩
        have hyb : y = b := chain_fun hnd (d₁ + 1) e₁ y b hy₁ hcb₁
        rw [hyb] at hy₂
        have hk : d₂ - d₁ = (d₂ - d₁ - 1) + 1 := by omega
        rw [hk] at hy₂
        exact hnc _ hy₂
      · exact hne (chain_fun hnd d₁ e₁ c₁ c₂ hch₁ (heq ▸ hch₂))
      · have hsum : d₁ + 1 = (d₂ + 1) + (d₁ - d₂) := by omega
        rw [hsum] at hcb₁
        rcases chain_split (d₂ + 1) (d₁ - d₂) e₁ b hcb₁ with ⟨y, hy₁, hy₂⟩
        have hyb : y = b := chain_fun hnd (d₂ + 1) e₁ y b hy₁ hcb₂
        rw [hyb] at hy₂
        have hk : d₁ - d₂ = (d₁ - d₂ - 1) + 1 := by omega
        rw [hk] at hy₂
        exact hnc _ hy₂
    have hle : ∀ c ∈ base.filter (fun c => c.parentId = some b.id),
        countIdTree x (buildNode base fuel c) ≤ 1 := by
      intro c hc
      rw [List.mem_filter] at hc
      have hp : c.parentId = some b.id := by simpa using hc.2
      apply ih c hc.1
      intro k hcyc
      exact hnc k (cycle_rotate hnd hcyc hp hb)
    have hsum := countIdList_map_le_one x (buildNode base fuel) _
      (List.Nodup.filter _ hbnd) hle hexcl
    by_cases hid : b.id = x
    · rw [if_pos hid]
      have hzero : countIdList x
          ((base.filter fun c => c.parentId = some b.id).map (buildNode base fuel)) = 0 := by
        apply countIdList_map_eq_zero
        intro c hc
        rw [List.mem_filter] at hc
        have hp : c.parentId = some b.id := by simpa using hc.2
        by_contra hpos
        rcases tree_occ base x fuel c hc.1 (by omega) with ⟨e, d, he, hex, _, hch⟩
        have heb : e = b := base_id_inj hnd he hb (by rw [hex, hid])
        rw [heb] at hch
        exact hnc d (chain_snoc hch hc.1 hp hb)
      omega
    · rw [if_neg hid]
      omega

theorem forest_count_le_one (base : List BasePlaylist)
    (hnd : (base.map fun b => b.id).Nodup) (x : Nat) :
    countIdList x (forestOf base) ≤ 1 := by
  have hbnd : base.Nodup := List.Nodup.of_map _ hnd
  unfold forestOf
  have hperm : List.Perm
      ((sortByKey (fun b => b.sortKey) (base.filter fun b => b.parentId = none)).map
        (buildNode base base.length))
      ((base.filter fun b => b.parentId = none).map (buildNode base base.length)) :=
    (sortByKey_perm _ _).map _
  rw [countIdList_perm x _ _ hperm]
  apply countIdList_map_le_one
  · exact List.Nodup.filter _ hbnd
  · intro r hr
    rw [List.mem_filter] at hr
    have hrroot : r.parentId = none := by simpa using hr.2
    exact tree_count_le_one base hnd x base.length r hr.1 (fun k => root_no_cycle hrroot k)
  · intro r₁ hr₁ r₂ hr₂ hne
    by_contra hcon
    push_neg at hcon
    rw [List.mem_filter] at hr₁ hr₂
    have hroot₁ : r₁.parentId = none := by simpa using hr₁.2
    rcases tree_occ base x base.length r₁ hr₁.1 (by omega) with ⟨e₁, d₁, he₁, hex₁, _, hch₁⟩
    rcases tree_occ base x base.length r₂ hr₂.1 (by omega) with ⟨e₂, d₂, he₂, hex₂, _, hch₂⟩
    have hee : e₁ = e₂ := base_id_inj hnd he₁ he₂ (by rw [hex₁, hex₂])
    rw [← hee] at hch₂
    rcases Nat.lt_trichotomy d₁ d₂ with hlt | heq | hlt
    · have hsum : d₂ = d₁ + (d₂ - d₁) := by omega
      rw [hsum] at hch₂
      rcases chain_split d₁ (d₂ - d₁) e₁ r₂ hch₂ with ⟨y, hy₁, hy₂⟩
      have hyr : y = r₁ := chain_fun hnd d₁ e₁ y r₁ hy₁ hch₁
      rw [hyr] at hy₂
      have hk : d₂ - d₁ = (d₂ - d₁ - 1) + 1 := by omega
      rw [hk] at hy₂
      rcases chain_succ_inv hy₂ with ⟨b', _, _, hpar, _⟩
      rw [hroot₁] at hpar
      cases hpar
    · exact hne (chain_fun hnd d₁ e₁ r₁ r₂ hch₁ (heq ▸ hch₂))
    · have hroot₂ : r₂.parentId = none := by simpa using hr₂.2
      have hsum : d₁ = d₂ + (d₁ - d₂) := by omega
      rw [hsum] at hch₁
      rcases chain_split d₂ (d₁ - d₂) e₁ r₁ hch₁ with ⟨y, hy₁, hy₂⟩
      have hyr : y = r₂ := chain_fun hnd d₂ e₁ y r₂ hy₁ hch₂
      rw [hyr] at hy₂
      have hk : d₁ - d₂ = (d₁ - d₂ - 1) + 1 := by omega
      rcases chain_succ_inv (hk ▸ hy₂) with ⟨b', _, _, hpar, _⟩
      rw [hroot₂] at hpar
      cases hpar

/-- All rows handed to the playlist-tree pass, across its tables, in
processing order. -/
def treeRowsOf (buf : List Nat) (lenPage : Nat) (tables : List TableInfo) :
    List (Nat × Nat) :=
  tables.foldl
    (fun acc tb => if tb.type = 7 then acc ++ (parseTablePages buf lenPage tb).rows else acc) []

/-- The node carried by the last row in `rows` that decodes to id `x`
(`none` when no row does). -/
def lastDecoded (buf : List Nat) (rows : List (Nat × Nat)) (x : Nat) : Option TreeNodeData :=
  rows.foldl
    (fun acc r =>
      match decodeTreeRow buf r.1 with
      | some q => if q.1 = x then some q.2 else acc
      | none => acc) none

theorem treeRows_fold_shift (buf : List Nat) (lenPage : Nat) :
    ∀ (ts : List TableInfo) (acc : List (Nat × Nat)),
      ts.foldl
        (fun acc tb => if tb.type = 7 then acc ++ (parseTablePages buf lenPage tb).rows else acc)
        acc =
      acc ++ ts.foldl
        (fun acc tb => if tb.type = 7 then acc ++ (parseTablePages buf lenPage tb).rows else acc)
        [] := by
  intro ts
  induction ts with
  | nil => simp
  | cons tb ts ih =>
    intro acc
    rw [List.foldl_cons, List.foldl_cons, ih, ih ((if tb.type = 7 then _ else _))]
    by_cases ht : tb.type = 7
    · rw [if_pos ht, if_pos ht]
      simp
    · rw [if_neg ht, if_neg ht]
      simp

theorem treeOf_eq_rowsFold (buf : List Nat) (lenPage : Nat) (tables : List TableInfo) :
    treeOf buf lenPage tables =
      (treeRowsOf buf lenPage tables).foldl
        (fun m r => parsePlaylistTreeRow buf r.1 m) [] := by
  unfold treeOf treeRowsOf
  have main : ∀ (ts : List TableInfo) (m : List (Nat × TreeNodeData)),
      ts.foldl
        (fun m tb =>
          if tb.type = 7 then
            (parseTablePages buf lenPage tb).rows.foldl
              (fun m r => parsePlaylistTreeRow buf r.1 m) m
          else m) m =
      (ts.foldl
        (fun acc tb => if tb.type = 7 then acc ++ (parseTablePages buf lenPage tb).rows else acc)
        []).foldl (fun m r => parsePlaylistTreeRow buf r.1 m) m := by
    intro ts
    induction ts with
    | nil => intro m; rfl
    | cons tb ts ih =>
      intro m
      rw [List.foldl_cons, List.foldl_cons, ih]
      by_cases ht : tb.type = 7
      · rw [if_pos ht, if_pos ht, List.nil_append,
          treeRows_fold_shift buf lenPage ts ((parseTablePages buf lenPage tb).rows),
          List.foldl_append]
      · rw [if_neg ht, if_neg ht]
  exact main tables []

theorem mapGet_treeFold (buf : List Nat) (x : Nat) :
    ∀ (rows : List (Nat × Nat)) (m : List (Nat × TreeNodeData)) (acc : Option TreeNodeData),
      mapGet m x = acc →
      mapGet (rows.foldl (fun m r => parsePlaylistTreeRow buf r.1 m) m) x =
        rows.foldl
          (fun acc r =>
            match decodeTreeRow buf r.1 with
            | some q => if q.1 = x then some q.2 else acc
            | none => acc) acc := by
  intro rows
  induction rows with
  | nil => intro m acc h; exact h
  | cons r rows ih =>
    intro m acc h
    rw [List.foldl_cons, List.foldl_cons]
    apply ih
    unfold parsePlaylistTreeRow
    cases hd : decodeTreeRow buf r.1 with
    | none => exact h
    | some q =>
      obtain ⟨i, v⟩ := q
      dsimp only
      by_cases hi : i = x
      · rw [hi, if_pos rfl]
        exact mapGet_mapSet_self m x v
      · rw [if_neg hi]
        rw [mapGet_mapSet_ne m i x v (fun he => hi he.symm)]
        exact h

theorem mapGet_treeOf_lastDecoded (buf : List Nat) (lenPage : Nat)
    (tables : List TableInfo) (x : Nat) :
    mapGet (treeOf buf lenPage tables) x =
      lastDecoded buf (treeRowsOf buf lenPage tables) x := by
  rw [treeOf_eq_rowsFold]
  exact mapGet_treeFold buf x _ [] none rfl

theorem baseOf_ids (tree : List (Nat × TreeNodeData)) (entries : List (Nat × List PEntry)) :
    (baseOf tree entries).map (fun b => b.id) = tree.map Prod.fst := by
  unfold baseOf
  rw [List.map_map]
  rfl

theorem mem_baseOf (tree : List (Nat × TreeNodeData)) (entries : List (Nat × List PEntry))
    (b : BasePlaylist) (hb : b ∈ baseOf tree entries) :
    ∃ q ∈ tree, b.id = q.1 ∧ b.name = q.2.name ∧
      b.parentId = (if q.2.parentId = 0 then none else some q.2.parentId) ∧
      b.isFolder = q.2.isFolder := by
  unfold baseOf at hb
  rcases List.mem_map.1 hb with ⟨q, hq, rfl⟩
  exact ⟨q, hq, rfl, rfl, rfl, rfl⟩

/-- Counterexample to claim C10: in `buf4` two valid playlist-tree rows both
carry id 1 (names "A" with `parent_id = 0`, then "B" with the dangling
`parent_id = 5`); the last row wins the `playlistTree` slot, its parent
resolves to no node, and the decoded forest contains zero playlists with
id 1 rather than exactly one. -/
theorem duplicate_playlist_ids_cex :
    ¬ (∀ (buf : List Nat) (now : Nat) (lib : RekordboxDatabase) (x : Nat),
        parseRekordboxDatabase buf now = .ok lib →
        2 ≤ ((treeRowsOf buf (readU32 buf 4)
            (readTables buf (readU32 buf 4) (readU32 buf 8))).filter
            (fun r => (decodeTreeRow buf r.1).any (fun q => q.1 == x))).length →
        countIdList x lib.playlists = 1) := by
  intro hclaim
  have h := hclaim buf4 0 ⟨[], []⟩ 1 rfl (by decide)
  exact absurd h (by decide)

/-- Claim C10, amended: the returned forest contains at most one playlist
with any given id (duplicate tree rows overwrite the same map slot, so not
"exactly one": the surviving row's `parent_id` may dangle, dropping the
node entirely), and every playlist that does appear takes its `name`,
`parent_id` and `is_folder` from the last tree row decoded with its id
(`sort_order` of that same row orders the roots but is not a field of the
returned playlist). -/
theorem playlists_unique_last_writer (buf : List Nat) (now : Nat)
    (lib : RekordboxDatabase) (x : Nat) (p : Playlist)
    (h : parseRekordboxDatabase buf now = .ok lib)
    (hp : MemForest p lib.playlists) (hpx : p.id = x) :
    countIdList x lib.playlists ≤ 1 ∧
    ∃ v : TreeNodeData,
      lastDecoded buf
        (treeRowsOf buf (readU32 buf 4) (readTables buf (readU32 buf 4) (readU32 buf 8))) x
        = some v ∧
      p.name = v.name ∧
      p.parentId = (if v.parentId = 0 then none else some v.parentId) ∧
      p.isFolder = v.isFolder := by
  rw [parseRekordboxDatabase_ok_inv buf now lib h] at hp ⊢
  have hpl : (buildLibrary buf now (readU32 buf 4) (readU32 buf 8)).playlists =
      forestOf (baseOf
        (treeOf buf (readU32 buf 4) (readTables buf (readU32 buf 4) (readU32 buf 8)))
        (entriesOf buf (readU32 buf 4) (readTables buf (readU32 buf 4) (readU32 buf 8)))) := rfl
  rw [hpl] at hp ⊢
  have hkeys := treeOf_keys_nodup buf (readU32 buf 4)
    (readTables buf (readU32 buf 4) (readU32 buf 8))
  have hnd : ((baseOf
      (treeOf buf (readU32 buf 4) (readTables buf (readU32 buf 4) (readU32 buf 8)))
      (entriesOf buf (readU32 buf 4) (readTables buf (readU32 buf 4) (readU32 buf 8)))).map
        (fun b => b.id)).Nodup := by
    rw [baseOf_ids]
    exact hkeys
  refine ⟨forest_count_le_one _ hnd x, ?_⟩
  rcases memForest_forestOf _ p hp with ⟨b, hgb, hid, hname, hpar, hfold, _⟩
  rcases mem_baseOf _ _ b hgb.1 with ⟨q, hq, hbid, hbname, hbpar, hbfold⟩
  obtain ⟨i, v⟩ := q
  have hix : i = x := by rw [← hpx, hid, hbid]
  subst hix
  have hget : mapGet
      (treeOf buf (readU32 buf 4) (readTables buf (readU32 buf 4) (readU32 buf 8))) i
      = some v :=
    mapGet_eq_some_of_mem _ i v hkeys hq
  refine ⟨v, ?_, ?_, ?_, ?_⟩
  · rw [← mapGet_treeOf_lastDecoded]
    exact hget
  · rw [hname, hbname]
  · rw [hpar, hbpar]
  · rw [hfold, hbfold]

/-- Witness for `playlists_unique_last_writer`: the single playlist of
`buf3` (id 1, name "A", a root, not a folder) matches the node of the last
(and only) decoded tree row with id 1. -/
theorem playlists_unique_last_writer_witness :
    countIdList 1 (RekordboxDatabase.playlists ⟨[], [⟨1, "A", none, false, [], [11, 10]⟩]⟩) ≤ 1 ∧
    ∃ v : TreeNodeData,
      lastDecoded buf3
        (treeRowsOf buf3 (readU32 buf3 4) (readTables buf3 (readU32 buf3 4) (readU32 buf3 8))) 1
        = some v ∧
      Playlist.name ⟨1, "A", none, false, [], [11, 10]⟩ = v.name ∧
      Playlist.parentId ⟨1, "A", none, false, [], [11, 10]⟩ =
        (if v.parentId = 0 then none else some v.parentId) ∧
      Playlist.isFolder ⟨1, "A", none, false, [], [11, 10]⟩ = v.isFolder :=
  playlists_unique_last_writer buf3 0 ⟨[], [⟨1, "A", none, false, [], [11, 10]⟩]⟩ 1
    ⟨1, "A", none, false, [], [11, 10]⟩ rfl (MemForest.here (List.mem_singleton.2 rfl)) rfl
